import Mathlib

/-!
Verification development for the "I Spy a Shape" browser game.

The definitions below are a shallow embedding of the core game logic found in
`src/js/modules/gameLogic.js` (round generation, motion update, click
evaluation) together with the configuration table and the sampling utilities
from `src/js/modules/utils.js`.  JavaScript numbers are modelled as rationals
(`ℚ`); every call to `Math.random()` is made explicit as a rational draw
`r ∈ [0,1)` supplied by an `Oracle`, and the in-place Fisher-Yates shuffles
are modelled as oracle-supplied reorderings that are constrained (in the
well-formedness predicate `Oracle.WF`) to be permutations.  The rejection
sampling loops `do { x = getRandomItem(l) } while (x === excluded)` are
modelled as one uniform draw from the list with the excluded element filtered
out, which is the distribution the loop realises whenever it terminates.
-/

namespace ISpy

/-- The three difficulty names used throughout `gameLogic.js`. -/
inductive Difficulty where
  | easy
  | medium
  | hard
deriving DecidableEq

/-- The two game modes (`classic` or `timed`). -/
inductive Mode where
  | classic
  | timed
deriving DecidableEq

/-- `gameConfig.basicShapes`. -/
def basicShapes : List String := ["circle", "square", "triangle", "rectangle"]

/-- `gameConfig.mediumShapes`. -/
def mediumShapes : List String := ["pentagon", "hexagon", "oval", "diamond"]

/-- `gameConfig.hardShapes`. -/
def hardShapes : List String := ["octagon", "star", "heart", "trapezoid"]

/-- `gameConfig.colors`. -/
def colors : List String :=
  ["#FF6B6B", "#4ECDC4", "#FFD166", "#FF8C42", "#6A4C93", "#F72585", "#4CC9F0", "#8AC926"]

/-- `gameConfig.maxAttempts`. -/
def maxAttempts : ℤ := 3

/-- One difficulty profile from `gameConfig.difficulty`. -/
structure DiffSettings where
  shapesCountMin : ℕ
  shapesCountMax : ℕ
  timeLimit : ℤ
  timeBonusCorrect : ℤ
  timeBonusColorMatch : ℤ
  timePenalty : ℤ
  distinctColors : Bool
  rotationMin : ℚ
  rotationMax : ℚ
  movementSpeedMin : ℚ
  movementSpeedMax : ℚ
deriving DecidableEq

/-- The difficulty table `gameConfig.difficulty` (easy / medium / hard). -/
def difficultySettings : Difficulty → DiffSettings
  | .easy => ⟨4, 8, 90, 5, 8, 3, true, 0, 45, 0, 0⟩
  | .medium => ⟨6, 12, 60, 3, 5, 5, false, 0, 180, 0, 0⟩
  | .hard => ⟨10, 18, 45, 2, 3, 7, false, 0, 359, 1/20, 3/20⟩

/-- `getRandomNumber(min, max)` from `utils.js`:
`Math.floor(Math.random() * (max - min + 1)) + min`, with the random draw
`r` made explicit. -/
def getRandomNumber (r mn mx : ℚ) : ℚ :=
  ⌊r * (mx - mn + 1)⌋ + mn

/-- `getRandomItem(array)` from `utils.js`:
`array[Math.floor(Math.random() * array.length)]`, with the draw explicit.
Out-of-range access yields `""` (unreachable under a well-formed draw on a
non-empty list). -/
def getRandomItem (r : ℚ) (l : List String) : String :=
  l.getD (⌊r * l.length⌋).toNat ""

/-- The rejection loop `do { x = getRandomItem(l) } while (x === excluded)`
used in `generateGameShapes`, modelled as a draw from the filtered list. -/
def getRandomItemExcluding (r : ℚ) (l : List String) (excluded : String) : String :=
  getRandomItem r (l.filter (fun a => a ≠ excluded))

/-- `getAvailableShapes()` from `gameLogic.js` lines 60-74. -/
def getAvailableShapes (d : Difficulty) : List String :=
  (basicShapes ++ (if d = .medium ∨ d = .hard then mediumShapes else []))
    ++ (if d = .hard then hardShapes else [])

/-- The shape-count clamp performed by `applyDifficultySettings()`
(`gameLogic.js` lines 103-111): the player's quantity preference is clamped
into the difficulty's `shapesCount` range. -/
def applyDifficultySettings (d : Difficulty) (q : ℕ) : ℕ :=
  let s := difficultySettings d
  if q < s.shapesCountMin then s.shapesCountMin
  else if q > s.shapesCountMax then s.shapesCountMax
  else q

/-- One shape descriptor, as built by `generateGameShapes` (the `element`
field, a DOM reference, is omitted). -/
structure Shape where
  type : String
  color : String
  size : ℚ
  rotation : ℚ
  isMatch : Bool
  x : ℚ
  y : ℚ
  vx : ℚ
  vy : ℚ
  zIndex : ℤ
deriving DecidableEq

/-- One grid cell of the positioning grid (`gameLogic.js` lines 275-288). -/
structure Cell where
  x : ℚ
  y : ℚ
  width : ℚ
  height : ℚ
deriving DecidableEq

/-- One screen quadrant (`gameLogic.js` lines 494-499). -/
structure Quad where
  minX : ℚ
  maxX : ℚ
  minY : ℚ
  maxY : ℚ
deriving DecidableEq

/-- `r` is a possible value of `Math.random()`. -/
def Unit01 (r : ℚ) : Prop := 0 ≤ r ∧ r < 1

/-- The random draws consumed while generating one shape descriptor. -/
structure ShapeChoice where
  rDecoyGate : ℚ
  rDecoyPick : ℚ
  rColorGate : ℚ
  rColorPick : ℚ
  rColorEx : ℚ
  rSize : ℚ
  rRot : ℚ
  rOffX : ℚ
  rOffY : ℚ
  rZ : ℚ
deriving DecidableEq

/-- All draws of a `ShapeChoice` come from `[0,1)`. -/
def ShapeChoice.WF (c : ShapeChoice) : Prop :=
  Unit01 c.rDecoyGate ∧ Unit01 c.rDecoyPick ∧ Unit01 c.rColorGate ∧
    Unit01 c.rColorPick ∧ Unit01 c.rColorEx ∧ Unit01 c.rSize ∧ Unit01 c.rRot ∧
    Unit01 c.rOffX ∧ Unit01 c.rOffY ∧ Unit01 c.rZ

/-- The random draws consumed when assigning one shape's velocity
(`gameLogic.js` lines 528-538). -/
structure VelChoice where
  rVX : ℚ
  rSX : ℚ
  rVY : ℚ
  rSY : ℚ
deriving DecidableEq

/-- All draws of a `VelChoice` come from `[0,1)`. -/
def VelChoice.WF (v : VelChoice) : Prop :=
  Unit01 v.rVX ∧ Unit01 v.rSX ∧ Unit01 v.rVY ∧ Unit01 v.rSY

/-- The full source of randomness for one call of `generateGameShapes`.
The shuffle fields model `shuffleArray` (Fisher-Yates) on the round colors,
the grid cells and the quadrants. -/
structure Oracle where
  colorShuffle : List String → List String
  cellShuffle : List Cell → List Cell
  quadShuffle : List Quad → List Quad
  choice : ℕ → ShapeChoice
  fbChoice : ℕ → ShapeChoice
  repairRX : ℚ
  repairRY : ℚ
  quadChoice : ℕ → ℚ × ℚ
  velChoice : ℕ → VelChoice

/-- Well-formedness of an oracle: the shuffles are permutations and every
draw lies in `[0,1)`. -/
def Oracle.WF (o : Oracle) : Prop :=
  (∀ l, List.Perm (o.colorShuffle l) l) ∧
  (∀ l, List.Perm (o.cellShuffle l) l) ∧
  (∀ l, List.Perm (o.quadShuffle l) l) ∧
  (∀ i, (o.choice i).WF) ∧
  (∀ i, (o.fbChoice i).WF) ∧
  Unit01 o.repairRX ∧ Unit01 o.repairRY ∧
  (∀ i, Unit01 (o.quadChoice i).1 ∧ Unit01 (o.quadChoice i).2) ∧
  (∀ i, (o.velChoice i).WF)

/-- The round color palette built by `generateGameShapes`
(`gameLogic.js` lines 216-234): start from the configured palette, append the
target color when missing, and under the distinct-colors rule shuffle,
truncate to `count + 1` entries and reinsert the target color at index 0 if
the truncation dropped it. -/
def buildRoundColors (o : Oracle) (distinct : Bool) (targetColor : String) (count : ℕ) :
    List String :=
  let base := colors ++ (if targetColor ∈ colors then [] else [targetColor])
  if distinct then
    let sliced := (o.colorShuffle base).take (count + 1)
    if targetColor ∈ sliced then sliced else sliced.set 0 targetColor
  else base

/-- The responsive size range (`gameLogic.js` lines 236-253), selected by
`window.innerWidth`.  The `(40, 70)` branch is kept although it is
unreachable (`innerWidth ≤ 480` already satisfies `innerWidth ≤ 768`). -/
def genSizes (innerWidth : ℚ) : ℚ × ℚ :=
  if innerWidth > 1200 then (75, 120)
  else if innerWidth ≤ 768 then (50, 85)
  else if innerWidth ≤ 480 then (40, 70)
  else (60, 100)

/-- The adaptive shape count (`gameLogic.js` lines 255-258):
`Math.max(5, Math.min(count, Math.floor(boardArea / 20000)))`. -/
def adjustedCountOf (count : ℕ) (boardWidth boardHeight : ℚ) : ℤ :=
  max 5 (min (count : ℤ) ⌊boardWidth * boardHeight / 20000⌋)

/-- The grid of candidate cells (`gameLogic.js` lines 275-288), row-major. -/
def mkGridCells (cellSize : ℚ) (cols rows : ℕ) : List Cell :=
  ((List.range rows).map (fun row : ℕ =>
    (List.range cols).map (fun col : ℕ =>
      Cell.mk ((col : ℚ) * cellSize) ((row : ℚ) * cellSize) cellSize cellSize))).flatten

/-- The parameters of one generation run, fixed before the placement loops. -/
structure GenCtx where
  o : Oracle
  d : Difficulty
  targetType : String
  targetColor : String
  avail : List String
  roundCs : List String
  minSize : ℚ
  maxSize : ℚ
  adjC : ℤ
  boardW : ℚ
  boardH : ℚ

/-- The shape-type/color selection of the main generation loop
(`gameLogic.js` lines 295-344) for index `i`.  Returns the chosen type and
color, the `isMatch` flag, and the updated `colorMatchAdded` flag. -/
def mainShapeTypeColor (ctx : GenCtx) (i : ℕ) (colorMatchAdded : Bool)
    (c : ShapeChoice) : String × String × Bool × Bool :=
  if i = 0 ∧ (ctx.d = .medium ∨ ctx.d = .hard) then
    (ctx.targetType, ctx.targetColor, true, true)
  else if i = 0 ∧ ctx.d = .easy then
    (ctx.targetType, getRandomItemExcluding c.rColorEx ctx.roundCs ctx.targetColor,
      true, colorMatchAdded)
  else
    let ty :=
      if (i : ℚ) < (ctx.adjC : ℚ) / 3 ∨ c.rDecoyGate < 7/10 then
        getRandomItemExcluding c.rDecoyPick ctx.avail ctx.targetType
      else ctx.targetType
    let cocma :=
      if c.rColorGate < 1/5 ∧ colorMatchAdded = false ∧ ctx.d ≠ .easy then
        (ctx.targetColor, true)
      else (getRandomItem c.rColorPick ctx.roundCs, colorMatchAdded)
    let m : Bool :=
      if ctx.d = .easy then decide (ty = ctx.targetType)
      else decide (ty = ctx.targetType ∧ cocma.1 = ctx.targetColor)
    (ty, cocma.1, m, cocma.2)

/-- The rotation drawn for one shape (`gameLogic.js` lines 386-389). -/
def drawRotation (ctx : GenCtx) (c : ShapeChoice) : ℚ :=
  getRandomNumber c.rRot (difficultySettings ctx.d).rotationMin
    (difficultySettings ctx.d).rotationMax

/-- The main grid-based generation loop (`gameLogic.js` lines 294-401).
The first component of the state threaded through is the fuel
(`adjustedCount` minus the number of shapes already produced); `i` is the
loop index.  When the shuffled grid cells run out the loop breaks, but the
type/color draws of the breaking iteration (and their effect on the
`colorMatchAdded` flag) have already happened, as in the source. -/
def genMainLoop (ctx : GenCtx) : ℕ → ℕ → List Cell → Bool → List Shape × Bool
  | 0, _, _, colorMatchAdded => ([], colorMatchAdded)
  | n + 1, i, cells, colorMatchAdded =>
    let c := ctx.o.choice i
    let tcm := mainShapeTypeColor ctx i colorMatchAdded c
    let shapeSize := getRandomNumber c.rSize ctx.minSize ctx.maxSize
    match cells with
    | [] => ([], tcm.2.2.2)
    | cell :: rest =>
      let cellPadding : ℚ := 10
      let maxOffsetX := cell.width - shapeSize - cellPadding * 2
      let maxOffsetY := cell.height - shapeSize - cellPadding * 2
      let offsetX := if maxOffsetX > 0 then getRandomNumber c.rOffX cellPadding maxOffsetX
        else cellPadding
      let offsetY := if maxOffsetY > 0 then getRandomNumber c.rOffY cellPadding maxOffsetY
        else cellPadding
      let z0 : ℤ := if tcm.2.2.1 then 20 else ⌊c.rZ * 10⌋ + 1
      let z1 : ℤ := if i % 3 = 0 then z0 + 5 else z0
      let z2 : ℤ := if i < 3 then z1 + 10 else z1
      let shape : Shape :=
        ⟨tcm.1, tcm.2.1, shapeSize, drawRotation ctx c, tcm.2.2.1,
          cell.x + offsetX, cell.y + offsetY, 0, 0, z2⟩
      let restOut := genMainLoop ctx n (i + 1) rest tcm.2.2.2
      (shape :: restOut.1, restOut.2)

/-- The random-position fallback loop (`gameLogic.js` lines 404-463), used
for the shapes left over once the grid cells are exhausted. -/
def genFallbackLoop (ctx : GenCtx) : ℕ → ℕ → Bool → List Shape
  | 0, _, _ => []
  | n + 1, i, colorMatchAdded =>
    let c := ctx.o.fbChoice i
    let ty :=
      if c.rDecoyGate < 7/10 then
        getRandomItemExcluding c.rDecoyPick ctx.avail ctx.targetType
      else ctx.targetType
    let cocma :=
      if c.rColorGate < 1/5 ∧ colorMatchAdded = false ∧ ctx.d ≠ .easy then
        (ctx.targetColor, true)
      else (getRandomItem c.rColorPick ctx.roundCs, colorMatchAdded)
    let m : Bool :=
      if ctx.d = .easy then decide (ty = ctx.targetType)
      else decide (ty = ctx.targetType ∧ cocma.1 = ctx.targetColor)
    let shapeSize := getRandomNumber c.rSize ctx.minSize ctx.maxSize
    let edgeMargin : ℚ := 20
    let posX := getRandomNumber c.rOffX edgeMargin (ctx.boardW - shapeSize - edgeMargin)
    let posY := getRandomNumber c.rOffY edgeMargin (ctx.boardH - shapeSize - edgeMargin)
    let z : ℤ := if m then 20 else ⌊c.rZ * 10⌋ + 1
    let shape : Shape :=
      ⟨ty, cocma.1, shapeSize, drawRotation ctx c, m, posX, posY, 0, 0, z⟩
    shape :: genFallbackLoop ctx n (i + 1) cocma.2

/-- The solvability repair step (`gameLogic.js` lines 465-488): if no shape
is a match, the last shape is converted into one (color is also forced for
medium/hard) and repositioned toward the board center. -/
def repairShapes (ctx : GenCtx) (shapes : List Shape) : List Shape :=
  if shapes.any (fun s => s.isMatch) then shapes
  else
    match shapes.getLast? with
    | none => shapes
    | some last =>
      let last' : Shape :=
        { last with
          type := ctx.targetType
          zIndex := 30
          color := if ctx.d ≠ .easy then ctx.targetColor else last.color
          isMatch := true
          x := ctx.boardW / 2 - last.size / 2 + getRandomNumber ctx.o.repairRX (-50) 50
          y := ctx.boardH / 2 - last.size / 2 + getRandomNumber ctx.o.repairRY (-50) 50 }
      shapes.dropLast ++ [last']

/-- The four screen quadrants (`gameLogic.js` lines 494-499). -/
def quadrantsOf (boardW boardH : ℚ) : List Quad :=
  [⟨0, boardW / 2, 0, boardH / 2⟩, ⟨boardW / 2, boardW, 0, boardH / 2⟩,
    ⟨0, boardW / 2, boardH / 2, boardH⟩, ⟨boardW / 2, boardW, boardH / 2, boardH⟩]

/-- Repositioning of one matching shape into a quadrant
(`gameLogic.js` lines 509-514). -/
def moveToQuad (s : Shape) (q : Quad) (r : ℚ × ℚ) : Shape :=
  let margin := max 30 (s.size / 2)
  { s with
    x := getRandomNumber r.1 (q.minX + margin) (q.maxX - s.size - margin)
    y := getRandomNumber r.2 (q.minY + margin) (q.maxY - s.size - margin) }

/-- The quadrant redistribution walk (`gameLogic.js` lines 504-515): the
`j`-th matching shape (in list order) is moved into the `j`-th shuffled
quadrant, for `j` below the number of quadrants. -/
def redistributeMatches (o : Oracle) (quads : List Quad) :
    List Shape → ℕ → List Shape
  | [], _ => []
  | s :: rest, j =>
    if s.isMatch then
      match quads.get? j with
      | some q => moveToQuad s q (o.quadChoice j) :: redistributeMatches o quads rest (j + 1)
      | none => s :: redistributeMatches o quads rest (j + 1)
    else s :: redistributeMatches o quads rest j

/-- The z-index boost for matching shapes (`gameLogic.js` lines 519-523). -/
def bumpMatchZ (shapes : List Shape) : List Shape :=
  shapes.map (fun s => if s.isMatch then { s with zIndex := s.zIndex + 10 } else s)

/-- One velocity component (`gameLogic.js` lines 529-537):
`getRandomNumber(speedMin, speedMax) * (Math.random() > 0.5 ? 1 : -1)`. -/
def assignedVel (mn mx r rs : ℚ) : ℚ :=
  getRandomNumber r mn mx * (if rs > 1/2 then 1 else -1)

/-- The hard-mode velocity assignment pass (`gameLogic.js` lines 526-539),
walking the shape list in order. -/
def assignVelocities (o : Oracle) (mn mx : ℚ) : ℕ → List Shape → List Shape
  | _, [] => []
  | i, s :: rest =>
    let v := o.velChoice i
    { s with
      vx := assignedVel mn mx v.rVX v.rSX
      vy := assignedVel mn mx v.rVY v.rSY } :: assignVelocities o mn mx (i + 1) rest

/-- The shape list produced by one successful run of `generateGameShapes`
(`gameLogic.js` lines 201-539): grid loop, fallback loop, solvability
repair, quadrant redistribution, z-index boost, velocity assignment. -/
def genShapesCore (o : Oracle) (d : Difficulty) (targetType targetColor : String)
    (count : ℕ) (boardW boardH innerWidth : ℚ) : List Shape :=
  let sett := difficultySettings d
  let avail := getAvailableShapes d
  let roundCs := buildRoundColors o sett.distinctColors targetColor count
  let sizes := genSizes innerWidth
  let adjC := adjustedCountOf count boardW boardH
  let cellSize := max (sizes.2 * (3/2)) 150
  let cols := (⌊boardW / cellSize⌋).toNat
  let rows := (⌊boardH / cellSize⌋).toNat
  let cells := (o.cellShuffle (mkGridCells cellSize cols rows)).reverse
  let ctx : GenCtx :=
    ⟨o, d, targetType, targetColor, avail, roundCs, sizes.1, sizes.2, adjC, boardW, boardH⟩
  let s1 := genMainLoop ctx adjC.toNat 0 cells false
  let s2 := s1.1 ++ genFallbackLoop ctx (adjC.toNat - s1.1.length) 0 s1.2
  let s3 := repairShapes ctx s2
  let s4 :=
    if (s3.filter (fun s => s.isMatch)).length > 1 then
      redistributeMatches o (o.quadShuffle (quadrantsOf boardW boardH)) s3 0
    else s3
  let s5 := bumpMatchZ s4
  if d = .hard then assignVelocities o sett.movementSpeedMin sett.movementSpeedMax 0 s5
  else s5

/-- The observable outcomes of `generateGameShapes`: a thrown validation
error, the too-small-board early return (which leaves `gameState.shapes`
empty and schedules a retry), or a generated round. -/
inductive GenResult where
  | invalidInput : GenResult
  | boardTooSmall : GenResult
  | ok : List Shape → GenResult
deriving DecidableEq

/-- The shapes of a successful generation, `[]` otherwise. -/
def GenResult.shapesOrNil : GenResult → List Shape
  | .ok l => l
  | _ => []

/-- The length of `targetShapeType.trim()`, with JavaScript's `trim`
(strip whitespace from both ends) modelled structurally on the character
list. -/
def jsTrimLength (s : String) : ℕ :=
  ((s.data.dropWhile Char.isWhitespace).reverse.dropWhile Char.isWhitespace).length

/-- `generateGameShapes(count, targetShapeType)` from `gameLogic.js`
lines 169-543.  The board dimensions, viewport width, target color and
random draws, read from the environment in the source, are explicit
parameters. -/
def generateGameShapes (o : Oracle) (d : Difficulty) (targetType targetColor : String)
    (count : ℕ) (boardW boardH innerWidth : ℚ) : GenResult :=
  if count = 0 ∨ jsTrimLength targetType = 0 then .invalidInput
  else if boardW < 100 ∨ boardH < 100 then .boardTooSmall
  else .ok (genShapesCore o d targetType targetColor count boardW boardH innerWidth)

/-- The effective width used by the motion updater
(`gameLogic.js` lines 609-616): wide shapes occupy `1.5 ×` their size. -/
def effectiveWidth (s : Shape) : ℚ :=
  if s.type = "rectangle" ∨ s.type = "oval" then s.size * (3/2) else s.size

/-- The effective height used by the motion updater: wide shapes occupy
`0.75 ×` their size. -/
def effectiveHeight (s : Shape) : ℚ :=
  if s.type = "rectangle" ∨ s.type = "oval" then s.size * (3/4) else s.size

/-- The per-shape body of the animation step in `startMovingShapes`
(`gameLogic.js` lines 600-641): integrate velocity, then per axis reflect
and clamp at the board boundaries. -/
def moveShape (boardW boardH : ℚ) (s : Shape) : Shape :=
  let x1 := s.x + s.vx
  let y1 := s.y + s.vy
  let w := effectiveWidth s
  let h := effectiveHeight s
  let xvx :=
    if x1 ≤ 0 ∨ x1 + w ≥ boardW then
      let xa := if x1 ≤ 0 then 0 else x1
      let xb := if xa + w ≥ boardW then boardW - w else xa
      (xb, s.vx * (-1))
    else (x1, s.vx)
  let yvy :=
    if y1 ≤ 0 ∨ y1 + h ≥ boardH then
      let ya := if y1 ≤ 0 then 0 else y1
      let yb := if ya + h ≥ boardH then boardH - h else ya
      (yb, s.vy * (-1))
    else (y1, s.vy)
  { s with x := xvx.1, vx := xvx.2, y := yvy.1, vy := yvy.2 }

/-- One animation frame of `startMovingShapes`: every shape is advanced. -/
def moveShapes (boardW boardH : ℚ) (shapes : List Shape) : List Shape :=
  shapes.map (moveShape boardW boardH)

/-- The correctness test of `handleShapeClick` (`gameLogic.js` lines
682-691): easy compares the shape type only, medium/hard compare type and
color. -/
def isCorrectMatch (d : Difficulty) (shapeType shapeColor targetType targetColor : String) :
    Bool :=
  if d = .easy then decide (shapeType = targetType)
  else decide (shapeType = targetType ∧ shapeColor = targetColor)

/-- The session counters touched by `handleShapeClick`. -/
structure ClickState where
  score : ℤ
  attemptsLeft : ℤ
  timeRemaining : ℤ
  gameOver : Bool
deriving DecidableEq

/-- `handleShapeClick(shape, event)` from `gameLogic.js` lines 673-764,
restricted to its effect on the session counters (sound, DOM feedback and
round scheduling are presentation-side effects). -/
def handleShapeClick (d : Difficulty) (m : Mode) (shapeType shapeColor : String)
    (targetType targetColor : String) (st : ClickState) : ClickState :=
  if st.gameOver then st
  else if isCorrectMatch d shapeType shapeColor targetType targetColor then
    let st1 := { st with score := st.score + 1 }
    let st2 := if d ≠ .hard then { st1 with attemptsLeft := maxAttempts } else st1
    if m = .timed then
      let sett := difficultySettings d
      let bonus := sett.timeBonusCorrect +
        (if d = .easy ∧ shapeColor = targetColor then sett.timeBonusColorMatch else 0)
      { st2 with timeRemaining := st2.timeRemaining + bonus }
    else st2
  else
    let st1 := { st with attemptsLeft := st.attemptsLeft - 1 }
    let st2 :=
      if m = .timed then
        { st1 with timeRemaining := max 1 (st1.timeRemaining - (difficultySettings d).timePenalty) }
      else st1
    if st2.attemptsLeft ≤ 0 then { st2 with gameOver := true } else st2

/-! Concrete random sources and shape values used to evaluate the generator
on explicit inputs. -/

/-- A degenerate per-shape draw: every `Math.random()` call returns `0`. -/
def trivChoice : ShapeChoice := ⟨0, 0, 0, 0, 0, 0, 0, 0, 0, 0⟩

/-- A degenerate velocity draw. -/
def trivVel : VelChoice := ⟨0, 0, 0, 0⟩

/-- An oracle whose shuffles are the identity and whose draws are all `0`. -/
def trivOracle : Oracle :=
  ⟨fun l => l, fun l => l, fun l => l, fun _ => trivChoice, fun _ => trivChoice,
   0, 0, fun _ => (0, 0), fun _ => trivVel⟩

/-- The fallback-loop draw that produces a size-100 rectangle at the far
right edge margin: the decoy pick lands on `rectangle`, the size draw on the
maximum. -/
def cexChoice5 : ShapeChoice := ⟨0, 5/6, 1/2, 0, 0, 40/41, 0, 0, 0, 0⟩

/-- An oracle whose fallback draws are `cexChoice5`. -/
def cexOracle5 : Oracle :=
  ⟨fun l => l, fun l => l, fun l => l, fun _ => trivChoice, fun _ => cexChoice5,
   0, 0, fun _ => (0, 0), fun _ => trivVel⟩

/-- A velocity draw of `19/20` per axis with positive sign draws. -/
def hardVel : VelChoice := ⟨19/20, 1, 19/20, 1⟩

/-- An oracle with zero draws except the velocity magnitudes. -/
def hardVelOracle : Oracle :=
  ⟨fun l => l, fun l => l, fun l => l, fun _ => trivChoice, fun _ => trivChoice,
   0, 0, fun _ => (0, 0), fun _ => hardVel⟩

/-- The rectangle descriptor produced by the fallback loop of
`cexOracle5` on a 100×100 board. -/
def rShape : Shape := ⟨"rectangle", "#FF6B6B", 100, 0, false, 20, 20, 0, 0, 1⟩

/-- The repaired, z-boosted match descriptor of the `cexOracle5` round. -/
def cShape : Shape := ⟨"circle", "#FF6B6B", 100, 0, true, -50, -50, 0, 0, 40⟩

/-- The repaired match descriptor before the z-index boost. -/
def cRep : Shape := ⟨"circle", "#FF6B6B", 100, 0, true, -50, -50, 0, 0, 30⟩

/-- The square decoy produced by the fallback loop of `hardVelOracle`
before velocities are assigned. -/
def sqShape : Shape := ⟨"square", "#FF6B6B", 60, 0, false, 20, 20, 0, 0, 1⟩

/-- The square decoy of the `hardVelOracle` round with its velocity. -/
def sqShapeV : Shape := ⟨"square", "#FF6B6B", 60, 0, false, 20, 20, 21/20, 21/20, 1⟩

/-- The repaired match of the `hardVelOracle` round before the z boost. -/
def cRep7 : Shape := ⟨"circle", "#FF6B6B", 60, 0, true, -30, -30, 0, 0, 30⟩

/-- The repaired match of the `hardVelOracle` round with its velocity. -/
def cShapeV : Shape := ⟨"circle", "#FF6B6B", 60, 0, true, -30, -30, 21/20, 21/20, 40⟩


/-- The square-footprint containment invariant used for the containment
analysis of `generateGameShapes`: the descriptor's nominal `size × size`
box lies inside the board (sizes never exceed 120 units). -/
def ShapeInv (W H : ℚ) (s : Shape) : Prop :=
  s.size ≤ 120 ∧ 0 ≤ s.x ∧ s.x + s.size ≤ W ∧ 0 ≤ s.y ∧ s.y + s.size ≤ H

/-- A concrete shape sitting exactly at the right boundary of an 800×600
board with positive horizontal velocity. -/
def moveWitnessShape : Shape := ⟨"circle", "#FF6B6B", 100, 0, true, 700, 300, 2, 0, 1⟩

/-! Theorems. -/

/-- The horizontal component of one motion step, read off the definition of
`moveShape`. -/
theorem moveShape_xvx (boardW boardH : ℚ) (s : Shape) :
    ((moveShape boardW boardH s).x, (moveShape boardW boardH s).vx) =
      (if s.x + s.vx ≤ 0 ∨ s.x + s.vx + effectiveWidth s ≥ boardW then
        ((if (if s.x + s.vx ≤ 0 then (0:ℚ) else s.x + s.vx) + effectiveWidth s ≥ boardW then
            boardW - effectiveWidth s
          else if s.x + s.vx ≤ 0 then (0:ℚ) else s.x + s.vx), s.vx * (-1))
      else (s.x + s.vx, s.vx)) := rfl

/-- C6: a shape at the right board boundary with positive `vx` is clamped to
`boardWidth - effectiveWidth` with `vx` flipped negative by one motion step,
and a second step moves it strictly back inward; the horizontal treatment is
independent of the shape's vertical state. -/
theorem moveShape_right_boundary_reflection (boardW boardH : ℚ) (s : Shape)
    (hx : s.x = boardW - effectiveWidth s) (hv : 0 < s.vx)
    (hroom : s.vx + effectiveWidth s < boardW) :
    (moveShape boardW boardH s).x = boardW - effectiveWidth s ∧
    (moveShape boardW boardH s).vx = -s.vx ∧
    (moveShape boardW boardH (moveShape boardW boardH s)).x =
      boardW - effectiveWidth s - s.vx ∧
    (moveShape boardW boardH (moveShape boardW boardH s)).x < (moveShape boardW boardH s).x ∧
    (moveShape boardW boardH (moveShape boardW boardH s)).vx = -s.vx := by
  have hew : effectiveWidth (moveShape boardW boardH s) = effectiveWidth s := rfl
  have hc1 : ¬(s.x + s.vx ≤ 0) := by rw [hx]; push_neg; linarith
  have hc2 : s.x + s.vx + effectiveWidth s ≥ boardW := by rw [hx]; linarith
  have h1 := moveShape_xvx boardW boardH s
  rw [if_pos (Or.inr hc2), if_neg hc1, if_pos (by linarith [hc2] : s.x + s.vx +
    effectiveWidth s ≥ boardW)] at h1
  rw [Prod.ext_iff] at h1
  obtain ⟨h1x, h1v⟩ := h1
  simp only at h1x h1v
  have h1v' : (moveShape boardW boardH s).vx = -s.vx := by rw [h1v]; ring
  have hd1 : ¬((moveShape boardW boardH s).x + (moveShape boardW boardH s).vx ≤ 0) := by
    rw [h1x, h1v']; push_neg; linarith
  have hd2 : ¬((moveShape boardW boardH s).x + (moveShape boardW boardH s).vx +
      effectiveWidth (moveShape boardW boardH s) ≥ boardW) := by
    rw [h1x, h1v', hew]; push_neg; linarith
  have h2 := moveShape_xvx boardW boardH (moveShape boardW boardH s)
  rw [hew, if_neg (by rw [not_or]; exact ⟨hd1, hd2⟩)] at h2
  rw [Prod.ext_iff] at h2
  obtain ⟨h2x, h2v⟩ := h2
  simp only at h2x h2v
  have h2x' : (moveShape boardW boardH (moveShape boardW boardH s)).x =
      boardW - effectiveWidth s - s.vx := by
    rw [h2x, h1x, h1v']; ring
  refine ⟨h1x, h1v', h2x', ?_, by rw [h2v, h1v']⟩
  rw [h2x', h1x]
  linarith

/-- Witness for C6: a circle of size 100 at `x = 700` on an 800-wide board
with `vx = 2` is clamped and reflected, then moves back inward. -/
theorem moveShape_right_boundary_reflection_witness :
    (moveShape 800 600 moveWitnessShape).x = 800 - effectiveWidth moveWitnessShape ∧
    (moveShape 800 600 moveWitnessShape).vx = -moveWitnessShape.vx ∧
    (moveShape 800 600 (moveShape 800 600 moveWitnessShape)).x =
      800 - effectiveWidth moveWitnessShape - moveWitnessShape.vx ∧
    (moveShape 800 600 (moveShape 800 600 moveWitnessShape)).x <
      (moveShape 800 600 moveWitnessShape).x ∧
    (moveShape 800 600 (moveShape 800 600 moveWitnessShape)).vx = -moveWitnessShape.vx :=
  moveShape_right_boundary_reflection 800 600 moveWitnessShape
    (by
      have h : effectiveWidth moveWitnessShape = 100 := by
        rw [effectiveWidth, if_neg (by decide)]
        rfl
      rw [h]
      norm_num [moveWitnessShape])
    (by norm_num [moveWitnessShape])
    (by
      have h : effectiveWidth moveWitnessShape = 100 := by
        rw [effectiveWidth, if_neg (by decide)]
        rfl
      rw [h]
      norm_num [moveWitnessShape])

/-- C2: for every clicked shape descriptor and round target, an easy-mode
click is judged correct iff the shape type matches the target type
(irrespective of color), while a medium or hard click is judged correct iff
both the type and the color match. -/
theorem handleShapeClick_match_rule (d : Difficulty) (sT sC tT tC : String) :
    (d = .easy → (isCorrectMatch d sT sC tT tC = true ↔ sT = tT)) ∧
    (d ≠ .easy → (isCorrectMatch d sT sC tT tC = true ↔ (sT = tT ∧ sC = tC))) := by
  constructor
  · intro h
    simp [isCorrectMatch, h]
  · intro h
    simp [isCorrectMatch, h]

/-- Witness for C2 at concrete descriptors: a color mismatch is irrelevant
on easy and decisive on medium. -/
theorem handleShapeClick_match_rule_witness :
    (isCorrectMatch .easy "circle" "#FF6B6B" "circle" "#4ECDC4" = true ↔
      "circle" = "circle") ∧
    (isCorrectMatch .medium "circle" "#FF6B6B" "circle" "#4ECDC4" = true ↔
      ("circle" = "circle" ∧ "#FF6B6B" = "#4ECDC4")) :=
  ⟨(handleShapeClick_match_rule .easy "circle" "#FF6B6B" "circle" "#4ECDC4").1 rfl,
   (handleShapeClick_match_rule .medium "circle" "#FF6B6B" "circle" "#4ECDC4").2 (by decide)⟩

/-- The main grid loop emits one shape per grid cell until the fuel or the
cells run out. -/
theorem genMainLoop_length (ctx : GenCtx) :
    ∀ (n i : ℕ) (cells : List Cell) (cma : Bool),
      (genMainLoop ctx n i cells cma).1.length = min n cells.length := by
  intro n
  induction n with
  | zero => intro i cells cma; simp [genMainLoop]
  | succ n ih =>
    intro i cells cma
    cases cells with
    | nil => simp [genMainLoop]
    | cons c rest =>
      simp only [genMainLoop, List.length_cons]
      rw [ih]
      omega

/-- The fallback loop emits exactly as many shapes as its fuel. -/
theorem genFallbackLoop_length (ctx : GenCtx) :
    ∀ (n i : ℕ) (cma : Bool), (genFallbackLoop ctx n i cma).length = n := by
  intro n
  induction n with
  | zero => intro i cma; rfl
  | succ n ih =>
    intro i cma
    simp only [genFallbackLoop, List.length_cons]
    rw [ih]

/-- The repair step replaces one shape; it never changes the count. -/
theorem repairShapes_length (ctx : GenCtx) (l : List Shape) :
    (repairShapes ctx l).length = l.length := by
  unfold repairShapes
  split
  · rfl
  · split
    · rfl
    · rename_i heq
      have hne : l ≠ [] := by
        intro h
        subst h
        simp at heq
      rw [List.length_append, List.length_dropLast]
      have : 1 ≤ l.length := List.length_pos.mpr hne
      simp
      omega

/-- The quadrant redistribution only moves shapes; the count is stable. -/
theorem redistributeMatches_length (o : Oracle) (quads : List Quad) :
    ∀ (l : List Shape) (j : ℕ), (redistributeMatches o quads l j).length = l.length := by
  intro l
  induction l with
  | nil => intro j; rfl
  | cons a rest ih =>
    intro j
    simp only [redistributeMatches]
    split
    · split
      · simp [ih]
      · simp [ih]
    · simp [ih]

/-- The z-index boost does not change the count. -/
theorem bumpMatchZ_length (l : List Shape) : (bumpMatchZ l).length = l.length := by
  simp [bumpMatchZ]

/-- The velocity pass does not change the count. -/
theorem assignVelocities_length (o : Oracle) (mn mx : ℚ) :
    ∀ (l : List Shape) (i : ℕ), (assignVelocities o mn mx i l).length = l.length := by
  intro l
  induction l with
  | nil => intro i; rfl
  | cons a rest ih =>
    intro i
    simp only [assignVelocities, List.length_cons]
    rw [ih]

/-- A successful generation returns exactly
`max(5, min(count, ⌊boardArea / 20000⌋))` shape descriptors. -/
theorem genShapesCore_length (o : Oracle) (d : Difficulty) (tT tC : String) (count : ℕ)
    (W H iW : ℚ) :
    (genShapesCore o d tT tC count W H iW).length = (adjustedCountOf count W H).toNat := by
  unfold genShapesCore
  split
  · rw [assignVelocities_length, bumpMatchZ_length]
    split
    · rw [redistributeMatches_length, repairShapes_length, List.length_append,
        genFallbackLoop_length, genMainLoop_length]
      omega
    · rw [repairShapes_length, List.length_append, genFallbackLoop_length, genMainLoop_length]
      omega
  · rw [bumpMatchZ_length]
    split
    · rw [redistributeMatches_length, repairShapes_length, List.length_append,
        genFallbackLoop_length, genMainLoop_length]
      omega
    · rw [repairShapes_length, List.length_append, genFallbackLoop_length, genMainLoop_length]
      omega

/-- Quadrant relocation does not touch the match flag. -/
theorem moveToQuad_isMatch (s : Shape) (q : Quad) (r : ℚ × ℚ) :
    (moveToQuad s q r).isMatch = s.isMatch := rfl

/-- After the repair step a non-empty shape list always contains a match:
either one existed already, or the last shape was converted into one. -/
theorem repairShapes_exists_match (ctx : GenCtx) (l : List Shape) (hne : l ≠ []) :
    ∃ s ∈ repairShapes ctx l, s.isMatch = true := by
  unfold repairShapes
  split
  · rename_i hany
    rcases List.any_eq_true.mp hany with ⟨s, hs, hp⟩
    exact ⟨s, hs, hp⟩
  · split
    · rename_i heq
      exfalso
      cases l with
      | nil => exact hne rfl
      | cons a as => simp at heq
    · rename_i last heq
      refine ⟨_, List.mem_append_right _ (List.mem_singleton_self _), rfl⟩

/-- The quadrant redistribution preserves the existence of a match. -/
theorem redistributeMatches_exists_match (o : Oracle) (quads : List Quad) :
    ∀ (l : List Shape) (j : ℕ), (∃ s ∈ l, s.isMatch = true) →
      ∃ s ∈ redistributeMatches o quads l j, s.isMatch = true := by
  intro l
  induction l with
  | nil => intro j h; rcases h with ⟨s, hs, _⟩; exact absurd hs (List.not_mem_nil s)
  | cons a rest ih =>
    intro j h
    simp only [redistributeMatches]
    by_cases ha : a.isMatch = true
    · rw [if_pos ha]
      split
      · exact ⟨_, List.mem_cons_self _ _, by rw [moveToQuad_isMatch]; exact ha⟩
      · exact ⟨a, List.mem_cons_self _ _, ha⟩
    · rw [if_neg ha]
      rcases h with ⟨s, hs, hp⟩
      rcases List.mem_cons.mp hs with h1 | h2
      · exact absurd (h1 ▸ hp) ha
      · rcases ih j ⟨s, h2, hp⟩ with ⟨t, ht, htp⟩
        exact ⟨t, List.mem_cons_of_mem _ ht, htp⟩

/-- The z-index boost preserves the existence of a match. -/
theorem bumpMatchZ_exists_match (l : List Shape) (h : ∃ s ∈ l, s.isMatch = true) :
    ∃ s ∈ bumpMatchZ l, s.isMatch = true := by
  rcases h with ⟨s, hs, hp⟩
  unfold bumpMatchZ
  refine ⟨_, List.mem_map_of_mem _ hs, ?_⟩
  rw [if_pos hp]
  exact hp

/-- The velocity pass preserves the existence of a match. -/
theorem assignVelocities_exists_match (o : Oracle) (mn mx : ℚ) :
    ∀ (l : List Shape) (i : ℕ), (∃ s ∈ l, s.isMatch = true) →
      ∃ s ∈ assignVelocities o mn mx i l, s.isMatch = true := by
  intro l
  induction l with
  | nil => intro i h; rcases h with ⟨s, hs, _⟩; exact absurd hs (List.not_mem_nil s)
  | cons a rest ih =>
    intro i h
    simp only [assignVelocities]
    rcases h with ⟨s, hs, hp⟩
    rcases List.mem_cons.mp hs with h1 | h2
    · exact ⟨_, List.mem_cons_self _ _, by subst h1; exact hp⟩
    · rcases ih (i + 1) ⟨s, h2, hp⟩ with ⟨t, ht, htp⟩
      exact ⟨t, List.mem_cons_of_mem _ ht, htp⟩

/-- Every successfully generated shape list contains a match. -/
theorem genShapesCore_exists_match (o : Oracle) (d : Difficulty) (tT tC : String) (count : ℕ)
    (W H iW : ℚ) :
    ∃ s ∈ genShapesCore o d tT tC count W H iW, s.isMatch = true := by
  unfold genShapesCore
  have hlen : ∀ (ctx : GenCtx) (n : ℕ) (cells : List Cell),
      ((genMainLoop ctx n 0 cells false).1 ++
        genFallbackLoop ctx (n - (genMainLoop ctx n 0 cells false).1.length) 0
          (genMainLoop ctx n 0 cells false).2).length = n := by
    intro ctx n cells
    rw [List.length_append, genFallbackLoop_length, genMainLoop_length]
    omega
  split
  · apply assignVelocities_exists_match
    apply bumpMatchZ_exists_match
    split
    · apply redistributeMatches_exists_match
      apply repairShapes_exists_match
      apply List.ne_nil_of_length_pos
      rw [hlen]
      have : (5:ℤ) ≤ adjustedCountOf count W H := le_max_left _ _
      omega
    · apply repairShapes_exists_match
      apply List.ne_nil_of_length_pos
      rw [hlen]
      have : (5:ℤ) ≤ adjustedCountOf count W H := le_max_left _ _
      omega
  · apply bumpMatchZ_exists_match
    split
    · apply redistributeMatches_exists_match
      apply repairShapes_exists_match
      apply List.ne_nil_of_length_pos
      rw [hlen]
      have : (5:ℤ) ≤ adjustedCountOf count W H := le_max_left _ _
      omega
    · apply repairShapes_exists_match
      apply List.ne_nil_of_length_pos
      rw [hlen]
      have : (5:ℤ) ≤ adjustedCountOf count W H := le_max_left _ _
      omega

/-- C1: for every difficulty profile, target kind, requested count and
random source, a generated round is a non-empty list containing at least
one descriptor with `isMatch = true`; the post-generation repair step
(`repairShapes`) forces a match whenever the probabilistic loops produced
none. -/
theorem generateGameShapes_solvable (o : Oracle) (d : Difficulty) (tT tC : String)
    (count : ℕ) (W H iW : ℚ) (hc : count ≠ 0) (ht : jsTrimLength tT ≠ 0)
    (hW : 100 ≤ W) (hH : 100 ≤ H) :
    (generateGameShapes o d tT tC count W H iW).shapesOrNil ≠ [] ∧
    ((generateGameShapes o d tT tC count W H iW).shapesOrNil.any
      (fun s => s.isMatch)) = true := by
  have hok : generateGameShapes o d tT tC count W H iW =
      .ok (genShapesCore o d tT tC count W H iW) := by
    unfold generateGameShapes
    rw [if_neg (by simp [hc, ht]), if_neg (by
      rw [not_or]
      exact ⟨not_lt.mpr hW, not_lt.mpr hH⟩)]
  rw [hok]
  simp only [GenResult.shapesOrNil]
  constructor
  · apply List.ne_nil_of_length_pos
    rw [genShapesCore_length]
    have : (5:ℤ) ≤ adjustedCountOf count W H := le_max_left _ _
    omega
  · rcases genShapesCore_exists_match o d tT tC count W H iW with ⟨s, hs, hp⟩
    exact List.any_eq_true.mpr ⟨s, hs, hp⟩

/-- Witness for C1: an easy round of 5 shapes on an 800×600 board. -/
theorem generateGameShapes_solvable_witness :
    (generateGameShapes trivOracle .easy "circle" "#FF6B6B" 5 800 600 1000).shapesOrNil ≠ [] ∧
    ((generateGameShapes trivOracle .easy "circle" "#FF6B6B" 5 800 600
      1000).shapesOrNil.any (fun s => s.isMatch)) = true :=
  generateGameShapes_solvable trivOracle .easy "circle" "#FF6B6B" 5 800 600 1000
    (by decide) (by decide) (by norm_num) (by norm_num)

/-- The clamp of `applyDifficultySettings` lands in the profile range. -/
theorem applyDifficultySettings_mem (d : Difficulty) (q : ℕ) :
    (difficultySettings d).shapesCountMin ≤ applyDifficultySettings d q ∧
    applyDifficultySettings d q ≤ (difficultySettings d).shapesCountMax := by
  cases d <;> simp only [applyDifficultySettings, difficultySettings] <;> split_ifs <;>
    constructor <;> omega

/-- C3 (amended): the count preference is first clamped into
`[shapesCountMin, shapesCountMax]` by `applyDifficultySettings`, and on a
board whose area supports the clamped count
(`⌊W·H / 20000⌋ ≥ shapesCountMax`) the generated round size stays in that
range — requesting 1 shape under the medium profile yields at least 6.  On
smaller boards the adaptive reduction `max(5, min(count, ⌊area/20000⌋))`
can cut the round below the profile minimum (see the counterexample). -/
theorem generateGameShapes_count_conformance (o : Oracle) (d : Difficulty) (tT tC : String)
    (q : ℕ) (W H iW : ℚ) (ht : jsTrimLength tT ≠ 0) (hW : 100 ≤ W) (hH : 100 ≤ H)
    (hboard : ((difficultySettings d).shapesCountMax : ℤ) ≤ ⌊W * H / 20000⌋) :
    (difficultySettings d).shapesCountMin ≤
      (generateGameShapes o d tT tC (applyDifficultySettings d q) W H iW).shapesOrNil.length ∧
    (generateGameShapes o d tT tC (applyDifficultySettings d q) W H iW).shapesOrNil.length ≤
      (difficultySettings d).shapesCountMax := by
  obtain ⟨hqmin, hqmax⟩ := applyDifficultySettings_mem d q
  have hcnz : applyDifficultySettings d q ≠ 0 := by
    have : 4 ≤ (difficultySettings d).shapesCountMin := by
      cases d <;> simp [difficultySettings]
    omega
  have hok : generateGameShapes o d tT tC (applyDifficultySettings d q) W H iW =
      .ok (genShapesCore o d tT tC (applyDifficultySettings d q) W H iW) := by
    unfold generateGameShapes
    rw [if_neg (by simp [hcnz, ht]), if_neg (by
      rw [not_or]
      exact ⟨not_lt.mpr hW, not_lt.mpr hH⟩)]
  rw [hok]
  simp only [GenResult.shapesOrNil]
  rw [genShapesCore_length]
  unfold adjustedCountOf
  have hminmax : min ((applyDifficultySettings d q : ℕ) : ℤ) ⌊W * H / 20000⌋ =
      ((applyDifficultySettings d q : ℕ) : ℤ) := by
    apply min_eq_left
    calc ((applyDifficultySettings d q : ℕ) : ℤ) ≤ (difficultySettings d).shapesCountMax := by
          exact_mod_cast hqmax
      _ ≤ ⌊W * H / 20000⌋ := hboard
  rw [hminmax]
  have h5max : 5 ≤ (difficultySettings d).shapesCountMax := by
    cases d <;> simp [difficultySettings]
  constructor <;> omega

/-- Witness for C3: requesting 1 shape under the medium profile on an
800×600 board yields between 6 and 12 descriptors. -/
theorem generateGameShapes_count_conformance_witness :
    (difficultySettings .medium).shapesCountMin ≤
      (generateGameShapes trivOracle .medium "circle" "#FF6B6B"
        (applyDifficultySettings .medium 1) 800 600 1000).shapesOrNil.length ∧
    (generateGameShapes trivOracle .medium "circle" "#FF6B6B"
        (applyDifficultySettings .medium 1) 800 600 1000).shapesOrNil.length ≤
      (difficultySettings .medium).shapesCountMax :=
  generateGameShapes_count_conformance trivOracle .medium "circle" "#FF6B6B" 1 800 600 1000
    (by decide) (by norm_num) (by norm_num) (by norm_num [difficultySettings])

/-- Counterexample to C3 as stated: a medium round requested with count 6
(within the profile range [6,12]) on a 300×300 board comes back with only
5 descriptors, below the profile minimum — the adaptive screen-area
reduction undercuts the clamp. -/
theorem generateGameShapes_count_below_min_cex :
    (generateGameShapes trivOracle .medium "circle" "#FF6B6B" 6 300 300 1000).shapesOrNil.length =
      5 ∧
    (difficultySettings .medium).shapesCountMin = 6 ∧
    6 ≤ (difficultySettings .medium).shapesCountMax := by
  refine ⟨?_, rfl, by decide⟩
  have hok : generateGameShapes trivOracle .medium "circle" "#FF6B6B" 6 300 300 1000 =
      .ok (genShapesCore trivOracle .medium "circle" "#FF6B6B" 6 300 300 1000) := by
    unfold generateGameShapes
    rw [if_neg (by decide), if_neg (by push_neg; exact ⟨by norm_num, by norm_num⟩)]
  rw [hok]
  simp only [GenResult.shapesOrNil]
  rw [genShapesCore_length]
  have h6 : adjustedCountOf 6 300 300 = 5 := by
    have hfl : (⌊(300:ℚ) * 300 / 20000⌋ : ℤ) = 4 := by norm_num
    simp [adjustedCountOf, hfl]
  rw [h6]
  rfl

/-- C4 (amended): the generator takes its too-small-board exit (returning
no shape descriptors) exactly when the board width or height is below 100
units; a 400×300 board is not degenerate and the hard/count-20 request on
it succeeds (see the counterexample). -/
theorem generateGameShapes_boardTooSmall_iff (o : Oracle) (d : Difficulty) (tT tC : String)
    (count : ℕ) (W H iW : ℚ) (hc : count ≠ 0) (ht : jsTrimLength tT ≠ 0) :
    (generateGameShapes o d tT tC count W H iW = .boardTooSmall) ↔ (W < 100 ∨ H < 100) := by
  unfold generateGameShapes
  rw [if_neg (by simp [hc, ht])]
  by_cases h : W < 100 ∨ H < 100
  · rw [if_pos h]
    simp [h]
  · rw [if_neg h]
    simp [h]

/-- Witness for C4: a 50-unit-wide board is rejected as too small. -/
theorem generateGameShapes_boardTooSmall_iff_witness :
    generateGameShapes trivOracle .easy "circle" "#FF6B6B" 5 50 300 1000 = .boardTooSmall :=
  (generateGameShapes_boardTooSmall_iff trivOracle .easy "circle" "#FF6B6B" 5 50 300 1000
    (by decide) (by decide)).mpr (Or.inl (by norm_num))

/-- Counterexample to C4 as stated: a hard-mode request with count 20 on a
400×300 board is not rejected — both dimensions are at least 100, so the
generator proceeds and returns 6 descriptors. -/
theorem generateGameShapes_board400x300_cex :
    generateGameShapes trivOracle .hard "star" "#00FF00" 20 400 300 1000 ≠
      GenResult.boardTooSmall ∧
    (generateGameShapes trivOracle .hard "star" "#00FF00" 20 400 300 1000).shapesOrNil.length =
      6 := by
  have hok : generateGameShapes trivOracle .hard "star" "#00FF00" 20 400 300 1000 =
      .ok (genShapesCore trivOracle .hard "star" "#00FF00" 20 400 300 1000) := by
    unfold generateGameShapes
    rw [if_neg (by decide), if_neg (by push_neg; exact ⟨by norm_num, by norm_num⟩)]
  rw [hok]
  constructor
  · simp
  · simp only [GenResult.shapesOrNil]
    rw [genShapesCore_length]
    have h6 : adjustedCountOf 20 400 300 = 6 := by
      have hfl : (⌊(400:ℚ) * 300 / 20000⌋ : ℤ) = 6 := by norm_num
      simp [adjustedCountOf, hfl]
    rw [h6]
    rfl

/-- C8: when the difficulty profile requires distinct colors, the round
palette contains at most `count + 1` colors and always includes the target
color (reinserted at index 0 if the shuffle-and-truncate dropped it). -/
theorem buildRoundColors_distinct_palette (o : Oracle) (d : Difficulty) (tC : String)
    (count : ℕ) (hshuf : ∀ l, List.Perm (o.colorShuffle l) l)
    (hd : (difficultySettings d).distinctColors = true) :
    (buildRoundColors o (difficultySettings d).distinctColors tC count).length ≤ count + 1 ∧
    tC ∈ buildRoundColors o (difficultySettings d).distinctColors tC count := by
  rw [hd]
  unfold buildRoundColors
  simp only [if_true, reduceIte]
  by_cases hmem : tC ∈ (o.colorShuffle (colors ++ (if tC ∈ colors then [] else [tC]))).take (count + 1)
  · rw [if_pos hmem]
    exact ⟨List.length_take_le _ _, hmem⟩
  · rw [if_neg hmem]
    have hne : (o.colorShuffle (colors ++ (if tC ∈ colors then [] else [tC]))).take (count + 1) ≠ [] := by
      have hlen : (o.colorShuffle (colors ++ (if tC ∈ colors then [] else [tC]))).length =
          (colors ++ (if tC ∈ colors then [] else [tC])).length :=
        (hshuf _).length_eq
      have hpos : 0 < (colors ++ (if tC ∈ colors then [] else [tC])).length := by
        rw [List.length_append]
        have : colors.length = 8 := by decide
        omega
      have : 0 < ((o.colorShuffle (colors ++ (if tC ∈ colors then [] else [tC]))).take (count + 1)).length := by
        rw [List.length_take]
        omega
      exact List.ne_nil_of_length_pos this
    constructor
    · rw [List.length_set]
      exact List.length_take_le _ _
    · rcases List.exists_cons_of_ne_nil hne with ⟨a, as, hcons⟩
      rw [hcons]
      simp [List.set]

/-- Witness for C8: the easy profile requires distinct colors and the
palette for a count-5 round under the identity shuffle keeps the target. -/
theorem buildRoundColors_distinct_palette_witness :
    (buildRoundColors trivOracle (difficultySettings .easy).distinctColors "#00FF00" 5).length ≤ 6 ∧
    "#00FF00" ∈ buildRoundColors trivOracle (difficultySettings .easy).distinctColors "#00FF00" 5 :=
  buildRoundColors_distinct_palette trivOracle .easy "#00FF00" 5 (fun l => List.Perm.refl l) rfl

/-- C9: in timed mode an incorrect click sets the remaining time to
`max(1, previous − profile.timePenalty)`, so it never drops below one
second and a wrong click alone cannot end the game through the timer. -/
theorem handleShapeClick_time_penalty_floor (d : Difficulty) (sT sC tT tC : String)
    (st : ClickState) (hgo : st.gameOver = false)
    (hwrong : isCorrectMatch d sT sC tT tC = false) :
    (handleShapeClick d .timed sT sC tT tC st).timeRemaining =
      max 1 (st.timeRemaining - (difficultySettings d).timePenalty) ∧
    1 ≤ (handleShapeClick d .timed sT sC tT tC st).timeRemaining := by
  unfold handleShapeClick
  simp only [hgo, Bool.false_eq_true, if_false, hwrong, reduceIte]
  split
  · exact ⟨rfl, le_max_left _ _⟩
  · exact ⟨rfl, le_max_left _ _⟩

/-- Witness for C9: a wrong easy click at 2 seconds left leaves the timer
at `max 1 (2 - 3) = 1`. -/
theorem handleShapeClick_time_penalty_floor_witness :
    (handleShapeClick .easy .timed "square" "#FF6B6B" "circle" "#4ECDC4"
      ⟨0, 3, 2, false⟩).timeRemaining =
      max 1 ((2 : ℤ) - (difficultySettings .easy).timePenalty) ∧
    1 ≤ (handleShapeClick .easy .timed "square" "#FF6B6B" "circle" "#4ECDC4"
      ⟨0, 3, 2, false⟩).timeRemaining :=
  handleShapeClick_time_penalty_floor .easy "square" "#FF6B6B" "circle" "#4ECDC4"
    ⟨0, 3, 2, false⟩ rfl (by decide)

/-- C10: on a correct click, easy and medium reset the attempts counter to
the configured maximum (3) while hard leaves it unchanged; an incorrect
click decrements it by exactly 1 in every difficulty. -/
theorem handleShapeClick_attempts_policy (d : Difficulty) (m : Mode) (sT sC tT tC : String)
    (st : ClickState) (hgo : st.gameOver = false) :
    (isCorrectMatch d sT sC tT tC = true → d ≠ .hard →
      (handleShapeClick d m sT sC tT tC st).attemptsLeft = maxAttempts) ∧
    (isCorrectMatch d sT sC tT tC = true → d = .hard →
      (handleShapeClick d m sT sC tT tC st).attemptsLeft = st.attemptsLeft) ∧
    (isCorrectMatch d sT sC tT tC = false →
      (handleShapeClick d m sT sC tT tC st).attemptsLeft = st.attemptsLeft - 1) := by
  refine ⟨?_, ?_, ?_⟩
  · intro hok hd
    unfold handleShapeClick
    simp only [hgo, Bool.false_eq_true, if_false, hok, reduceIte, hd, ne_eq,
      not_false_iff, if_true]
    split
    · rfl
    · rfl
  · intro hok hd
    subst hd
    unfold handleShapeClick
    simp only [hgo, Bool.false_eq_true, if_false, hok, reduceIte, ne_eq,
      not_true_eq_false]
    split <;> rfl
  · intro hwrong
    unfold handleShapeClick
    simp only [hgo, Bool.false_eq_true, if_false, hwrong, reduceIte]
    split <;> split <;> rfl

/-- Witness for C10 at concrete clicks: a correct medium click resets the
attempts to 3, a correct hard click keeps 2, a wrong click drops 2 to 1. -/
theorem handleShapeClick_attempts_policy_witness :
    (handleShapeClick .medium .classic "circle" "#FF6B6B" "circle" "#FF6B6B"
      ⟨0, 2, 10, false⟩).attemptsLeft = maxAttempts ∧
    (handleShapeClick .hard .classic "circle" "#FF6B6B" "circle" "#FF6B6B"
      ⟨0, 2, 10, false⟩).attemptsLeft = 2 ∧
    (handleShapeClick .medium .classic "square" "#FF6B6B" "circle" "#FF6B6B"
      ⟨0, 2, 10, false⟩).attemptsLeft = 2 - 1 :=
  ⟨(handleShapeClick_attempts_policy .medium .classic "circle" "#FF6B6B" "circle" "#FF6B6B"
      ⟨0, 2, 10, false⟩ rfl).1 (by decide) (by decide),
   (handleShapeClick_attempts_policy .hard .classic "circle" "#FF6B6B" "circle" "#FF6B6B"
      ⟨0, 2, 10, false⟩ rfl).2.1 (by decide) rfl,
   (handleShapeClick_attempts_policy .medium .classic "square" "#FF6B6B" "circle" "#FF6B6B"
      ⟨0, 2, 10, false⟩ rfl).2.2 (by decide)⟩

theorem getRandomNumber_ge_lt (r mn mx : ℚ) (h0 : 0 ≤ r) (h1 : r < 1)
    (hL : 0 < mx - mn + 1) :
    mn ≤ getRandomNumber r mn mx ∧ getRandomNumber r mn mx < mx + 1 := by
  unfold getRandomNumber
  constructor
  · have hf : (0:ℤ) ≤ ⌊r * (mx - mn + 1)⌋ :=
      Int.floor_nonneg.mpr (mul_nonneg h0 hL.le)
    have : (0:ℚ) ≤ (⌊r * (mx - mn + 1)⌋ : ℚ) := by exact_mod_cast hf
    linarith
  · have h2 : r * (mx - mn + 1) < 1 * (mx - mn + 1) := mul_lt_mul_of_pos_right h1 hL
    have h3 : ((⌊r * (mx - mn + 1)⌋ : ℤ) : ℚ) ≤ r * (mx - mn + 1) := Int.floor_le _
    linarith

theorem getRandomNumber_nat_le (r : ℚ) (h0 : 0 ≤ r) (h1 : r < 1) (a b : ℕ) (hab : a ≤ b) :
    (a:ℚ) ≤ getRandomNumber r a b ∧ getRandomNumber r a b ≤ b := by
  have hcast : ((b:ℚ) - a + 1) = ((b - a + 1 : ℕ) : ℚ) := by
    push_cast [hab]
    ring
  have hN : (0:ℚ) < ((b - a + 1 : ℕ) : ℚ) := by
    exact_mod_cast Nat.succ_pos (b - a)
  constructor
  · exact (getRandomNumber_ge_lt r a b h0 h1 (by rw [hcast]; exact hN)).1
  · unfold getRandomNumber
    have hlt : ⌊r * ((b:ℚ) - a + 1)⌋ < (b - a + 1 : ℕ) := by
      rw [hcast]
      apply Int.floor_lt.mpr
      calc r * ((b - a + 1 : ℕ) : ℚ) < 1 * ((b - a + 1 : ℕ) : ℚ) :=
            mul_lt_mul_of_pos_right h1 hN
        _ = (((b - a + 1 : ℕ) : ℤ) : ℚ) := by push_cast; ring
    have hle : ⌊r * ((b:ℚ) - a + 1)⌋ ≤ (b - a : ℕ) := by omega
    have : ((⌊r * ((b:ℚ) - a + 1)⌋ : ℤ) : ℚ) ≤ ((b - a : ℕ) : ℚ) := by exact_mod_cast hle
    have hba : ((b - a : ℕ) : ℚ) = (b:ℚ) - a := by push_cast [hab]; ring
    linarith

theorem genSizes_cases (iW : ℚ) :
    genSizes iW = (75, 120) ∨ genSizes iW = (50, 85) ∨ genSizes iW = (40, 70) ∨
    genSizes iW = (60, 100) := by
  unfold genSizes
  split_ifs <;> simp

theorem mkGridCells_mem (cs : ℚ) (cols rows : ℕ) (hcs : 0 < cs) (W H : ℚ)
    (hcols : (cols : ℚ) * cs ≤ W) (hrows : (rows : ℚ) * cs ≤ H) :
    ∀ c ∈ mkGridCells cs cols rows, c.width = cs ∧ c.height = cs ∧ 0 ≤ c.x ∧
      c.x + cs ≤ W ∧ 0 ≤ c.y ∧ c.y + cs ≤ H := by
  intro c hc
  unfold mkGridCells at hc
  rcases List.mem_flatten.mp hc with ⟨l, hl, hcl⟩
  rcases List.mem_map.mp hl with ⟨row, hrow, hleq⟩
  subst hleq
  rcases List.mem_map.mp hcl with ⟨col, hcol, hcc⟩
  rw [List.mem_range] at hrow hcol
  subst hcc
  refine ⟨rfl, rfl, ?_, ?_, ?_, ?_⟩
  · positivity
  · show (col : ℚ) * cs + cs ≤ W
    calc (col : ℚ) * cs + cs = ((col + 1 : ℕ) : ℚ) * cs := by push_cast; ring
      _ ≤ (cols : ℚ) * cs := by
          apply mul_le_mul_of_nonneg_right _ hcs.le
          exact_mod_cast Nat.succ_le_of_lt hcol
      _ ≤ W := hcols
  · positivity
  · show (row : ℚ) * cs + cs ≤ H
    calc (row : ℚ) * cs + cs = ((row + 1 : ℕ) : ℚ) * cs := by push_cast; ring
      _ ≤ (rows : ℚ) * cs := by
          apply mul_le_mul_of_nonneg_right _ hcs.le
          exact_mod_cast Nat.succ_le_of_lt hrow
      _ ≤ H := hrows

theorem genMainLoop_mem (ctx : GenCtx) (a b : ℕ) (cs : ℚ)
    (hmin : ctx.minSize = a) (hmax : ctx.maxSize = b) (hab : a ≤ b) (hb120 : (b:ℚ) ≤ 120)
    (hwf : ∀ i, (ctx.o.choice i).WF) (hcsb : (b:ℚ) + 30 ≤ cs) :
    ∀ (n i : ℕ) (cells : List Cell) (cma : Bool),
      (∀ c ∈ cells, c.width = cs ∧ c.height = cs ∧ 0 ≤ c.x ∧ c.x + cs ≤ ctx.boardW ∧
        0 ≤ c.y ∧ c.y + cs ≤ ctx.boardH) →
      ∀ s ∈ (genMainLoop ctx n i cells cma).1, ShapeInv ctx.boardW ctx.boardH s := by
  intro n
  induction n with
  | zero =>
    intro i cells cma hcells s hs
    simp [genMainLoop] at hs
  | succ n ih =>
    intro i cells cma hcells s hs
    cases cells with
    | nil => simp [genMainLoop] at hs
    | cons c rest =>
      obtain ⟨hcw, hch, hcx0, hcxW, hcy0, hcyH⟩ := hcells c (List.mem_cons_self c rest)
      simp only [genMainLoop] at hs
      rcases List.mem_cons.mp hs with hhead | htail
      · obtain ⟨_, _, _, _, _, h6, _, h8, h9, _⟩ := hwf i
        subst hhead
        have hszb : (a:ℚ) ≤ getRandomNumber (ctx.o.choice i).rSize ctx.minSize ctx.maxSize ∧
            getRandomNumber (ctx.o.choice i).rSize ctx.minSize ctx.maxSize ≤ b := by
          rw [hmin, hmax]
          exact getRandomNumber_nat_le _ h6.1 h6.2 a b hab
        set sz := getRandomNumber (ctx.o.choice i).rSize ctx.minSize ctx.maxSize with hsz
        have hMx : c.width - sz - 10 * 2 > 0 := by
          rw [hcw]
          linarith [hszb.2]
        have hMy : c.height - sz - 10 * 2 > 0 := by
          rw [hch]
          linarith [hszb.2]
        have hoffx := getRandomNumber_ge_lt (ctx.o.choice i).rOffX 10 (c.width - sz - 10 * 2)
          h8.1 h8.2 (by rw [hcw]; linarith [hszb.2])
        have hoffy := getRandomNumber_ge_lt (ctx.o.choice i).rOffY 10 (c.height - sz - 10 * 2)
          h9.1 h9.2 (by rw [hch]; linarith [hszb.2])
        rw [ShapeInv]
        refine ⟨?_, ?_, ?_, ?_, ?_⟩
        · show sz ≤ 120
          linarith [hszb.2]
        · show 0 ≤ c.x + (if c.width - sz - 10 * 2 > 0 then
            getRandomNumber (ctx.o.choice i).rOffX 10 (c.width - sz - 10 * 2) else 10)
          rw [if_pos hMx]
          linarith [hoffx.1]
        · show c.x + (if c.width - sz - 10 * 2 > 0 then
            getRandomNumber (ctx.o.choice i).rOffX 10 (c.width - sz - 10 * 2) else 10) + sz ≤
            ctx.boardW
          rw [if_pos hMx]
          have := hoffx.2
          rw [hcw] at this ⊢
          linarith
        · show 0 ≤ c.y + (if c.height - sz - 10 * 2 > 0 then
            getRandomNumber (ctx.o.choice i).rOffY 10 (c.height - sz - 10 * 2) else 10)
          rw [if_pos hMy]
          linarith [hoffy.1]
        · show c.y + (if c.height - sz - 10 * 2 > 0 then
            getRandomNumber (ctx.o.choice i).rOffY 10 (c.height - sz - 10 * 2) else 10) + sz ≤
            ctx.boardH
          rw [if_pos hMy]
          have := hoffy.2
          rw [hch] at this ⊢
          linarith
      · exact ih (i + 1) rest _ (fun d hd => hcells d (List.mem_cons_of_mem _ hd)) s htail

theorem genFallbackLoop_mem (ctx : GenCtx) (a b : ℕ)
    (hmin : ctx.minSize = a) (hmax : ctx.maxSize = b) (hab : a ≤ b) (hb120 : (b:ℚ) ≤ 120)
    (hwf : ∀ i, (ctx.o.fbChoice i).WF)
    (hW : 480 ≤ ctx.boardW) (hH : 480 ≤ ctx.boardH) :
    ∀ (n i : ℕ) (cma : Bool),
      ∀ s ∈ genFallbackLoop ctx n i cma, ShapeInv ctx.boardW ctx.boardH s := by
  intro n
  induction n with
  | zero =>
    intro i cma s hs
    simp [genFallbackLoop] at hs
  | succ n ih =>
    intro i cma s hs
    simp only [genFallbackLoop] at hs
    rcases List.mem_cons.mp hs with hhead | htail
    · obtain ⟨_, _, _, _, _, h6, _, h8, h9, _⟩ := hwf i
      subst hhead
      have hszb : (a:ℚ) ≤ getRandomNumber (ctx.o.fbChoice i).rSize ctx.minSize ctx.maxSize ∧
          getRandomNumber (ctx.o.fbChoice i).rSize ctx.minSize ctx.maxSize ≤ b := by
        rw [hmin, hmax]
        exact getRandomNumber_nat_le _ h6.1 h6.2 a b hab
      set sz := getRandomNumber (ctx.o.fbChoice i).rSize ctx.minSize ctx.maxSize with hsz
      have hposx := getRandomNumber_ge_lt (ctx.o.fbChoice i).rOffX 20 (ctx.boardW - sz - 20)
        h8.1 h8.2 (by linarith [hszb.2])
      have hposy := getRandomNumber_ge_lt (ctx.o.fbChoice i).rOffY 20 (ctx.boardH - sz - 20)
        h9.1 h9.2 (by linarith [hszb.2])
      rw [ShapeInv]
      refine ⟨by linarith [hszb.2], by linarith [hposx.1], by linarith [hposx.2],
        by linarith [hposy.1], by linarith [hposy.2]⟩
    · exact ih (i + 1) _ s htail

theorem mem_of_mem_dropLast {α : Type} {l : List α} {a : α} (h : a ∈ l.dropLast) : a ∈ l := by
  induction l with
  | nil => simp at h
  | cons x xs ih =>
    cases xs with
    | nil => simp at h
    | cons y ys =>
      rcases List.mem_cons.mp h with h1 | h2
      · exact h1 ▸ List.mem_cons_self _ _
      · exact List.mem_cons_of_mem _ (ih h2)

theorem repairShapes_mem (ctx : GenCtx)
    (hrx : Unit01 ctx.o.repairRX) (hry : Unit01 ctx.o.repairRY)
    (hW : 480 ≤ ctx.boardW) (hH : 480 ≤ ctx.boardH) (l : List Shape)
    (hl : ∀ s ∈ l, ShapeInv ctx.boardW ctx.boardH s) :
    ∀ s ∈ repairShapes ctx l, ShapeInv ctx.boardW ctx.boardH s := by
  intro s hs
  unfold repairShapes at hs
  split at hs
  · exact hl s hs
  · split at hs
    · exact hl s hs
    · rename_i last heq
      rcases List.mem_append.mp hs with hdrop | hsing
      · exact hl s (mem_of_mem_dropLast hdrop)
      · have hlast : last ∈ l := List.mem_of_getLast?_eq_some heq
        obtain ⟨hsz, _, _, _, _⟩ := hl last hlast
        rw [List.mem_singleton] at hsing
        subst hsing
        have hgx := getRandomNumber_ge_lt ctx.o.repairRX (-50) 50 hrx.1 hrx.2 (by norm_num)
        have hgy := getRandomNumber_ge_lt ctx.o.repairRY (-50) 50 hry.1 hry.2 (by norm_num)
        rw [ShapeInv]
        refine ⟨hsz, ?_, ?_, ?_, ?_⟩
        · show 0 ≤ ctx.boardW / 2 - last.size / 2 + getRandomNumber ctx.o.repairRX (-50) 50
          linarith [hgx.1]
        · show ctx.boardW / 2 - last.size / 2 + getRandomNumber ctx.o.repairRX (-50) 50 +
            last.size ≤ ctx.boardW
          linarith [hgx.2]
        · show 0 ≤ ctx.boardH / 2 - last.size / 2 + getRandomNumber ctx.o.repairRY (-50) 50
          linarith [hgy.1]
        · show ctx.boardH / 2 - last.size / 2 + getRandomNumber ctx.o.repairRY (-50) 50 +
            last.size ≤ ctx.boardH
          linarith [hgy.2]

theorem moveToQuad_mem (W H : ℚ) (hW : 480 ≤ W) (hH : 480 ≤ H) (s : Shape) (q : Quad)
    (r : ℚ × ℚ) (hr1 : Unit01 r.1) (hr2 : Unit01 r.2)
    (hq : 0 ≤ q.minX ∧ q.maxX = q.minX + W / 2 ∧ q.maxX ≤ W ∧ 0 ≤ q.minY ∧
      q.maxY = q.minY + H / 2 ∧ q.maxY ≤ H)
    (hs : ShapeInv W H s) : ShapeInv W H (moveToQuad s q r) := by
  obtain ⟨hq1, hq2, hq3, hq4, hq5, hq6⟩ := hq
  obtain ⟨hsz, _, _, _, _⟩ := hs
  have hm1 : (30:ℚ) ≤ max 30 (s.size / 2) := le_max_left _ _
  have hm2 : max (30:ℚ) (s.size / 2) ≤ 60 := by
    apply max_le
    · norm_num
    · linarith
  have hgx := getRandomNumber_ge_lt r.1 (q.minX + max 30 (s.size / 2))
    (q.maxX - s.size - max 30 (s.size / 2)) hr1.1 hr1.2 (by
      rw [hq2]
      linarith)
  have hgy := getRandomNumber_ge_lt r.2 (q.minY + max 30 (s.size / 2))
    (q.maxY - s.size - max 30 (s.size / 2)) hr2.1 hr2.2 (by
      rw [hq5]
      linarith)
  rw [ShapeInv]
  unfold moveToQuad
  refine ⟨hsz, ?_, ?_, ?_, ?_⟩
  · show (0:ℚ) ≤ getRandomNumber r.1 (q.minX + max 30 (s.size / 2))
      (q.maxX - s.size - max 30 (s.size / 2))
    linarith [hgx.1]
  · show getRandomNumber r.1 (q.minX + max 30 (s.size / 2))
      (q.maxX - s.size - max 30 (s.size / 2)) + s.size ≤ W
    linarith [hgx.2]
  · show (0:ℚ) ≤ getRandomNumber r.2 (q.minY + max 30 (s.size / 2))
      (q.maxY - s.size - max 30 (s.size / 2))
    linarith [hgy.1]
  · show getRandomNumber r.2 (q.minY + max 30 (s.size / 2))
      (q.maxY - s.size - max 30 (s.size / 2)) + s.size ≤ H
    linarith [hgy.2]

theorem redistributeMatches_mem (o : Oracle) (quads : List Quad) (W H : ℚ)
    (hW : 480 ≤ W) (hH : 480 ≤ H)
    (hq : ∀ q ∈ quads, 0 ≤ q.minX ∧ q.maxX = q.minX + W / 2 ∧ q.maxX ≤ W ∧ 0 ≤ q.minY ∧
      q.maxY = q.minY + H / 2 ∧ q.maxY ≤ H)
    (hwf : ∀ i, Unit01 (o.quadChoice i).1 ∧ Unit01 (o.quadChoice i).2) :
    ∀ (l : List Shape) (j : ℕ), (∀ s ∈ l, ShapeInv W H s) →
      ∀ s ∈ redistributeMatches o quads l j, ShapeInv W H s := by
  intro l
  induction l with
  | nil => intro j hl s hs; simp [redistributeMatches] at hs
  | cons a rest ih =>
    intro j hl s hs
    simp only [redistributeMatches] at hs
    have hrest : ∀ s ∈ rest, ShapeInv W H s :=
      fun t ht => hl t (List.mem_cons_of_mem _ ht)
    split at hs
    · split at hs
      · rename_i q hget
        rcases List.mem_cons.mp hs with hhead | htail
        · subst hhead
          exact moveToQuad_mem W H hW hH a q (o.quadChoice j) (hwf j).1 (hwf j).2
            (hq q (List.get?_mem hget)) (hl a (List.mem_cons_self _ _))
        · exact ih (j + 1) hrest s htail
      · rcases List.mem_cons.mp hs with hhead | htail
        · exact hhead ▸ hl a (List.mem_cons_self _ _)
        · exact ih (j + 1) hrest s htail
    · rcases List.mem_cons.mp hs with hhead | htail
      · exact hhead ▸ hl a (List.mem_cons_self _ _)
      · exact ih j hrest s htail

theorem bumpMatchZ_mem (W H : ℚ) (l : List Shape) (hl : ∀ s ∈ l, ShapeInv W H s) :
    ∀ s ∈ bumpMatchZ l, ShapeInv W H s := by
  intro s hs
  unfold bumpMatchZ at hs
  rcases List.mem_map.mp hs with ⟨t, ht, hts⟩
  subst hts
  have := hl t ht
  split
  · exact this
  · exact this

theorem assignVelocities_mem (o : Oracle) (mn mx : ℚ) (W H : ℚ) :
    ∀ (l : List Shape) (i : ℕ), (∀ s ∈ l, ShapeInv W H s) →
      ∀ s ∈ assignVelocities o mn mx i l, ShapeInv W H s := by
  intro l
  induction l with
  | nil => intro i hl s hs; simp [assignVelocities] at hs
  | cons a rest ih =>
    intro i hl s hs
    simp only [assignVelocities] at hs
    rcases List.mem_cons.mp hs with hhead | htail
    · subst hhead
      exact hl a (List.mem_cons_self _ _)
    · exact ih (i + 1) (fun t ht => hl t (List.mem_cons_of_mem _ ht)) s htail

theorem toNat_floor_div_mul_le (W cs : ℚ) (hW : 0 ≤ W) (hcs : 0 < cs) :
    (((⌊W / cs⌋).toNat : ℕ) : ℚ) * cs ≤ W := by
  have h0 : (0:ℤ) ≤ ⌊W / cs⌋ := Int.floor_nonneg.mpr (div_nonneg hW hcs.le)
  have h1 : (((⌊W / cs⌋).toNat : ℕ) : ℚ) = ((⌊W / cs⌋ : ℤ) : ℚ) := by
    exact_mod_cast congrArg (fun z : ℤ => (z : ℚ)) (Int.toNat_of_nonneg h0)
  rw [h1]
  have h2 : ((⌊W / cs⌋ : ℤ) : ℚ) ≤ W / cs := Int.floor_le _
  calc ((⌊W / cs⌋ : ℤ) : ℚ) * cs ≤ (W / cs) * cs := mul_le_mul_of_nonneg_right h2 hcs.le
    _ = W := div_mul_cancel₀ W (ne_of_gt hcs)

theorem quadrantsOf_mem (W H : ℚ) (hW : 0 ≤ W) (hH : 0 ≤ H) :
    ∀ q ∈ quadrantsOf W H, 0 ≤ q.minX ∧ q.maxX = q.minX + W / 2 ∧ q.maxX ≤ W ∧
      0 ≤ q.minY ∧ q.maxY = q.minY + H / 2 ∧ q.maxY ≤ H := by
  intro q hq
  simp only [quadrantsOf, List.mem_cons, List.not_mem_nil, or_false] at hq
  rcases hq with rfl | rfl | rfl | rfl <;>
    refine ⟨by linarith, by linarith, by linarith, by linarith, by linarith, by linarith⟩

set_option maxHeartbeats 1000000 in
theorem genShapesCore_containment_aux (o : Oracle) (d : Difficulty) (tT tC : String)
    (count : ℕ) (W H iW : ℚ) (a b : ℕ) (hab : a ≤ b) (hb120 : (b:ℚ) ≤ 120)
    (hsz : genSizes iW = ((a:ℚ), (b:ℚ)))
    (hcsb : (b:ℚ) + 30 ≤ max ((b:ℚ) * (3/2)) 150)
    (hwf : o.WF) (hW : 480 ≤ W) (hH : 480 ≤ H) :
    ∀ s ∈ genShapesCore o d tT tC count W H iW, ShapeInv W H s := by
  obtain ⟨hcshuf, hcellshuf, hquadshuf, hchoice, hfbc, hrx, hry, hquadc, hvelc⟩ := hwf
  have hcs0 : (0:ℚ) < max ((b:ℚ) * (3/2)) 150 := lt_of_lt_of_le (by norm_num) (le_max_right _ _)
  simp only [genShapesCore, hsz]
  set CS := max ((b:ℚ) * (3/2)) 150 with hCS
  intro s hs
  have hcellsOK : ∀ c ∈ (o.cellShuffle (mkGridCells CS (⌊W / CS⌋).toNat (⌊H / CS⌋).toNat)).reverse,
      c.width = CS ∧ c.height = CS ∧ 0 ≤ c.x ∧ c.x + CS ≤ W ∧ 0 ≤ c.y ∧ c.y + CS ≤ H := by
    intro c hc
    rw [List.mem_reverse] at hc
    have hc2 : c ∈ mkGridCells CS (⌊W / CS⌋).toNat (⌊H / CS⌋).toNat :=
      (hcellshuf _).mem_iff.mp hc
    exact mkGridCells_mem CS _ _ hcs0 W H
      (toNat_floor_div_mul_le W CS (by linarith) hcs0)
      (toNat_floor_div_mul_le H CS (by linarith) hcs0) c hc2
  set C : GenCtx :=
    { o := o, d := d, targetType := tT, targetColor := tC,
      avail := getAvailableShapes d,
      roundCs := buildRoundColors o (difficultySettings d).distinctColors tC count,
      minSize := (a:ℚ), maxSize := (b:ℚ), adjC := adjustedCountOf count W H,
      boardW := W, boardH := H } with hC
  have h1 : ∀ t ∈ (genMainLoop C (adjustedCountOf count W H).toNat 0
      ((o.cellShuffle (mkGridCells CS (⌊W / CS⌋).toNat (⌊H / CS⌋).toNat)).reverse) false).1,
      ShapeInv W H t :=
    genMainLoop_mem C a b CS rfl rfl hab hb120 hchoice hcsb _ 0 _ false hcellsOK
  have h2 : ∀ (m i : ℕ) (cma : Bool), ∀ t ∈ genFallbackLoop C m i cma, ShapeInv W H t :=
    fun m i cma => genFallbackLoop_mem C a b rfl rfl hab hb120 hfbc hW hH m i cma
  have h12 : ∀ t ∈ ((genMainLoop C (adjustedCountOf count W H).toNat 0
      ((o.cellShuffle (mkGridCells CS (⌊W / CS⌋).toNat (⌊H / CS⌋).toNat)).reverse) false).1 ++
      genFallbackLoop C ((adjustedCountOf count W H).toNat -
        (genMainLoop C (adjustedCountOf count W H).toNat 0
          ((o.cellShuffle (mkGridCells CS (⌊W / CS⌋).toNat (⌊H / CS⌋).toNat)).reverse)
          false).1.length) 0
        (genMainLoop C (adjustedCountOf count W H).toNat 0
          ((o.cellShuffle (mkGridCells CS (⌊W / CS⌋).toNat (⌊H / CS⌋).toNat)).reverse)
          false).2), ShapeInv W H t := by
    intro t ht
    rcases List.mem_append.mp ht with h | h
    · exact h1 t h
    · exact h2 _ _ _ t h
  have h3 := repairShapes_mem C hrx hry hW hH _ h12
  have hquadsOK : ∀ q ∈ o.quadShuffle (quadrantsOf W H), 0 ≤ q.minX ∧
      q.maxX = q.minX + W / 2 ∧ q.maxX ≤ W ∧ 0 ≤ q.minY ∧ q.maxY = q.minY + H / 2 ∧
      q.maxY ≤ H := by
    intro q hq
    exact quadrantsOf_mem W H (by linarith) (by linarith) q ((hquadshuf _).mem_iff.mp hq)
  split at hs
  · refine assignVelocities_mem o _ _ W H _ 0 ?_ s hs
    refine bumpMatchZ_mem W H _ ?_
    split
    · exact redistributeMatches_mem o _ W H hW hH hquadsOK hquadc _ 0 h3
    · exact h3
  · refine bumpMatchZ_mem W H _ ?_ s hs
    split
    · exact redistributeMatches_mem o _ W H hW hH hquadsOK hquadc _ 0 h3
    · exact h3

theorem genShapesCore_containment (o : Oracle) (d : Difficulty) (tT tC : String)
    (count : ℕ) (W H iW : ℚ) (hwf : o.WF) (hW : 480 ≤ W) (hH : 480 ≤ H) :
    ∀ s ∈ genShapesCore o d tT tC count W H iW, ShapeInv W H s := by
  rcases genSizes_cases iW with h | h | h | h
  · exact genShapesCore_containment_aux o d tT tC count W H iW 75 120 (by norm_num)
      (by norm_num) (by rw [h]; norm_num) (by norm_num) hwf hW hH
  · exact genShapesCore_containment_aux o d tT tC count W H iW 50 85 (by norm_num)
      (by norm_num) (by rw [h]; norm_num) (by norm_num) hwf hW hH
  · exact genShapesCore_containment_aux o d tT tC count W H iW 40 70 (by norm_num)
      (by norm_num) (by rw [h]; norm_num) (by norm_num) hwf hW hH
  · exact genShapesCore_containment_aux o d tT tC count W H iW 60 100 (by norm_num)
      (by norm_num) (by rw [h]; norm_num) (by norm_num) hwf hW hH

/-- C5 (amended): on boards of at least 480×480 units, every descriptor of
a generated round has its nominal `size × size` footprint inside
`[0, boardWidth] × [0, boardHeight]` — across grid-cell placement, random
fallback placement, the centered repair placement and the quadrant
redistribution.  The 1.5× effective width of wide shapes is not accounted
for by any placement path, so the original claim fails (see the
counterexample), and the stated edge margin is not maintained either (grid
offsets start at 10 units, the repair placement only respects the board
itself). -/
theorem generateGameShapes_square_containment (o : Oracle) (d : Difficulty) (tT tC : String)
    (count : ℕ) (W H iW : ℚ) (hwf : o.WF) (hc : count ≠ 0) (ht : jsTrimLength tT ≠ 0)
    (hW : 480 ≤ W) (hH : 480 ≤ H) :
    ((generateGameShapes o d tT tC count W H iW).shapesOrNil.all
      (fun s => decide (0 ≤ s.x ∧ s.x + s.size ≤ W ∧ 0 ≤ s.y ∧ s.y + s.size ≤ H))) = true := by
  have hok : generateGameShapes o d tT tC count W H iW =
      .ok (genShapesCore o d tT tC count W H iW) := by
    unfold generateGameShapes
    rw [if_neg (by simp [hc, ht]), if_neg (by
      rw [not_or]
      exact ⟨not_lt.mpr (by linarith), not_lt.mpr (by linarith)⟩)]
  rw [hok]
  simp only [GenResult.shapesOrNil]
  rw [List.all_eq_true]
  intro s hs
  obtain ⟨_, h1, h2, h3, h4⟩ := genShapesCore_containment o d tT tC count W H iW hwf hW hH s hs
  exact decide_eq_true ⟨h1, h2, h3, h4⟩

/-- The identity-shuffle, all-zero-draw oracle is well formed. -/
theorem trivOracle_wf : trivOracle.WF := by
  refine ⟨fun l => List.Perm.refl l, fun l => List.Perm.refl l, fun l => List.Perm.refl l,
    ?_, ?_, ?_, ?_, ?_, ?_⟩
  · intro i
    unfold trivOracle trivChoice ShapeChoice.WF Unit01
    norm_num
  · intro i
    unfold trivOracle trivChoice ShapeChoice.WF Unit01
    norm_num
  · unfold trivOracle Unit01
    norm_num
  · unfold trivOracle Unit01
    norm_num
  · intro i
    unfold trivOracle Unit01
    norm_num
  · intro i
    unfold trivOracle trivVel VelChoice.WF Unit01
    norm_num

/-- Witness for C5: the easy round of `trivOracle` on an 800×600 board
keeps every square footprint inside the board. -/
theorem generateGameShapes_square_containment_witness :
    ((generateGameShapes trivOracle .easy "circle" "#FF6B6B" 5 800 600 1000).shapesOrNil.all
      (fun s => decide (0 ≤ s.x ∧ s.x + s.size ≤ 800 ∧ 0 ≤ s.y ∧ s.y + s.size ≤ 600))) =
      true :=
  generateGameShapes_square_containment trivOracle .easy "circle" "#FF6B6B" 5 800 600 1000
    trivOracle_wf (by decide) (by decide) (by norm_num) (by norm_num)

set_option maxHeartbeats 1000000 in
/-- Full evaluation of the `cexOracle5` round: five shapes are generated by
the random fallback path on a 100×100 board (the grid has no cells), the
first four are size-100 rectangles at `x = 20`, and the repaired match ends
centered at `x = -50`. -/
theorem cex5_core_eval : genShapesCore cexOracle5 .easy "circle" "#FF6B6B" 5 100 100 1000 =
    [rShape, rShape, rShape, rShape, cShape] := by
  have hsz : genSizes 1000 = (60, 100) := by norm_num [genSizes]
  have hadj : adjustedCountOf 5 100 100 = 5 := by
    have h0 : (⌊(100:ℚ) * 100 / 20000⌋ : ℤ) = 0 := by norm_num
    simp [adjustedCountOf, h0]
  have hcs : max ((100:ℚ) * (3/2)) 150 = 150 := by norm_num
  have hcols : (⌊(100:ℚ) / 150⌋ : ℤ) = 0 := by norm_num
  have hrc : buildRoundColors cexOracle5 true "#FF6B6B" 5 =
      ["#FF6B6B", "#4ECDC4", "#FFD166", "#FF8C42", "#6A4C93", "#F72585"] := by decide
  have hav : getAvailableShapes .easy = ["circle", "square", "triangle", "rectangle"] := by decide
  simp only [genShapesCore, hsz, hadj, hcs, hcols, hrc, hav, difficultySettings]
  set C : GenCtx :=
    { o := cexOracle5, d := Difficulty.easy, targetType := "circle",
      targetColor := "#FF6B6B", avail := ["circle", "square", "triangle", "rectangle"],
      roundCs := ["#FF6B6B", "#4ECDC4", "#FFD166", "#FF8C42", "#6A4C93", "#F72585"],
      minSize := 60, maxSize := 100, adjC := 5, boardW := 100, boardH := 100 } with hC
  have hCo : C.o = cexOracle5 := by rw [hC]
  have hCd : C.d = .easy := by rw [hC]
  have hCtt : C.targetType = "circle" := by rw [hC]
  have hCtc : C.targetColor = "#FF6B6B" := by rw [hC]
  have hCavail : C.avail = ["circle", "square", "triangle", "rectangle"] := by rw [hC]
  have hCround : C.roundCs = ["#FF6B6B", "#4ECDC4", "#FFD166", "#FF8C42", "#6A4C93", "#F72585"] := by
    rw [hC]
  have hCmin : C.minSize = 60 := by rw [hC]
  have hCmax : C.maxSize = 100 := by rw [hC]
  have hCW : C.boardW = 100 := by rw [hC]
  have hCH : C.boardH = 100 := by rw [hC]
  have hfbc : ∀ i, cexOracle5.fbChoice i = cexChoice5 := fun _ => rfl
  have hc1 : cexChoice5.rDecoyGate = 0 := rfl
  have hc2 : cexChoice5.rDecoyPick = 5/6 := rfl
  have hc3 : cexChoice5.rColorGate = 1/2 := rfl
  have hc4 : cexChoice5.rColorPick = 0 := rfl
  have hc6 : cexChoice5.rSize = 40/41 := rfl
  have hc7 : cexChoice5.rRot = 0 := rfl
  have hc8 : cexChoice5.rOffX = 0 := rfl
  have hc9 : cexChoice5.rOffY = 0 := rfl
  have hc10 : cexChoice5.rZ = 0 := rfl
  have hrev : (cexOracle5.cellShuffle (mkGridCells 150 (Int.toNat 0) (Int.toNat 0))).reverse = [] := by
    simp [cexOracle5, mkGridCells]
  rw [hrev]
  have hmain : genMainLoop C 5 0 [] false = ([], false) := by
    have h5 : (5:ℕ) = 4 + 1 := rfl
    rw [h5]
    simp [genMainLoop, mainShapeTypeColor, hCd]
  have hgate : ((0:ℚ) < 7/10) := by norm_num
  have hpick : getRandomItemExcluding (5/6) ["circle", "square", "triangle", "rectangle"] "circle" =
      "rectangle" := by
    have hf : (["circle", "square", "triangle", "rectangle"].filter (fun a => a ≠ "circle")) =
        ["square", "triangle", "rectangle"] := by decide
    have hfl : (⌊(5/6:ℚ) * 3⌋ : ℤ) = 2 := by norm_num
    simp only [getRandomItemExcluding, getRandomItem, hf, List.length_cons, List.length_nil]
    norm_num [hfl]
    decide
  have hitem : getRandomItem 0 ["#FF6B6B", "#4ECDC4", "#FFD166", "#FF8C42", "#6A4C93", "#F72585"] =
      "#FF6B6B" := by
    have hfl : (⌊(0:ℚ) * 6⌋ : ℤ) = 0 := by norm_num
    simp only [getRandomItem, List.length_cons, List.length_nil]
    norm_num [hfl]
  have hsize : getRandomNumber (40/41) 60 100 = 100 := by
    have h : (⌊(40/41:ℚ) * (100 - 60 + 1)⌋ : ℤ) = 40 := by norm_num
    rw [getRandomNumber, h]
    norm_num
  have hposx : getRandomNumber 0 20 (-20 : ℚ) = 20 := by
    have h : (⌊(0:ℚ) * ((-20 : ℚ) - 20 + 1)⌋ : ℤ) = 0 := by norm_num
    rw [getRandomNumber, h]
    norm_num
  have hrot : drawRotation C cexChoice5 = 0 := by
    rw [drawRotation, hCd, hc7]
    have h : (⌊(0:ℚ) * ((difficultySettings Difficulty.easy).rotationMax -
        (difficultySettings Difficulty.easy).rotationMin + 1)⌋ : ℤ) = 0 := by
      norm_num [difficultySettings]
    rw [getRandomNumber, h]
    norm_num [difficultySettings]
  have hz : (⌊(0:ℚ) * 10⌋ : ℤ) = 0 := by norm_num
  have hstep : ∀ (n i : ℕ), genFallbackLoop C (n + 1) i false =
      rShape :: genFallbackLoop C n (i + 1) false := by
    intro n i
    simp only [genFallbackLoop, hCo, hCd, hCtt, hCtc, hCavail, hCround, hCmin, hCmax, hCW, hCH,
      hfbc, hc1, hc2, hc3, hc4, hc6, hc7, hc8, hc9, hc10, hgate, hpick, hitem, hsize, hrot, hz]
    simp [rShape, hposx]
  have hfb0 : ∀ i, genFallbackLoop C 0 i false = [] := fun _ => rfl
  have hfb5 : genFallbackLoop C 5 0 false = [rShape, rShape, rShape, rShape, rShape] := by
    simp only [hstep, hfb0]
  have h5 : Int.toNat 5 = 5 := rfl
  simp only [h5, hmain, List.length_nil, List.nil_append, Nat.sub_zero, hfb5]
  have hrIsM : rShape.isMatch = false := rfl
  have hxr : (100:ℚ) / 2 - 100 / 2 + getRandomNumber 0 (-50) 50 = -50 := by
    have h : (⌊(0:ℚ) * ((50:ℚ) - -50 + 1)⌋ : ℤ) = 0 := by norm_num
    rw [getRandomNumber, h]
    norm_num
  have hrepair : repairShapes C [rShape, rShape, rShape, rShape, rShape] =
      [rShape, rShape, rShape, rShape, cRep] := by
    have hany : ([rShape, rShape, rShape, rShape, rShape].any (fun s => s.isMatch)) = false := by
      simp [hrIsM]
    have hlast : [rShape, rShape, rShape, rShape, rShape].getLast? = some rShape := rfl
    have hdrop : [rShape, rShape, rShape, rShape, rShape].dropLast = [rShape, rShape, rShape, rShape] := rfl
    rw [repairShapes, hany]
    simp only [Bool.false_eq_true, if_false, hlast, hdrop, hCo, hCd, hCtt, hCtc, hCW, hCH]
    have hrx : cexOracle5.repairRX = 0 := rfl
    have hry : cexOracle5.repairRY = 0 := rfl
    have hrsz : rShape.size = 100 := rfl
    simp only [hrx, hry, hrsz, hxr]
    simp [rShape, cRep]
  rw [hrepair]
  have hcRepM : cRep.isMatch = true := rfl
  have hflt : (List.filter (fun s => s.isMatch) [rShape, rShape, rShape, rShape, cRep]).length = 1 := by
    simp [hrIsM, hcRepM]
  rw [hflt]
  have hguard : ¬((1:ℕ) > 1) := by norm_num
  simp only [if_neg hguard]
  have hbump : bumpMatchZ [rShape, rShape, rShape, rShape, cRep] =
      [rShape, rShape, rShape, rShape, cShape] := by
    simp only [bumpMatchZ, List.map_cons, List.map_nil, hrIsM, hcRepM]
    simp [cRep, cShape]
  rw [hbump]
  simp

set_option maxHeartbeats 1000000 in
/-- Full evaluation of the `hardVelOracle` round: five shapes are generated
by the fallback path on a 100×100 board, four size-60 squares and a
repaired match, and every descriptor receives velocity `21/20` on both axes
from the draw `19/20` — the integer-oriented `getRandomNumber` applied to
the fractional speed range `[1/20, 3/20]` yields `⌊19/20 · 11/10⌋ + 1/20 =
21/20`. -/
theorem hardVel_core_eval : genShapesCore hardVelOracle .hard "circle" "#FF6B6B" 10 100 100 1000 =
    [sqShapeV, sqShapeV, sqShapeV, sqShapeV, cShapeV] := by
  have hsz : genSizes 1000 = (60, 100) := by norm_num [genSizes]
  have hadj : adjustedCountOf 10 100 100 = 5 := by
    have h0 : (⌊(100:ℚ) * 100 / 20000⌋ : ℤ) = 0 := by norm_num
    simp [adjustedCountOf, h0]
  have hcs : max ((100:ℚ) * (3/2)) 150 = 150 := by norm_num
  have hcols : (⌊(100:ℚ) / 150⌋ : ℤ) = 0 := by norm_num
  have hrc : buildRoundColors hardVelOracle false "#FF6B6B" 10 =
      ["#FF6B6B", "#4ECDC4", "#FFD166", "#FF8C42", "#6A4C93", "#F72585", "#4CC9F0", "#8AC926"] := by
    decide
  have hav : getAvailableShapes .hard =
      ["circle", "square", "triangle", "rectangle", "pentagon", "hexagon", "oval", "diamond",
       "octagon", "star", "heart", "trapezoid"] := by decide
  simp only [genShapesCore, hsz, hadj, hcs, hcols, hrc, hav, difficultySettings]
  set C : GenCtx :=
    { o := hardVelOracle, d := Difficulty.hard, targetType := "circle",
      targetColor := "#FF6B6B",
      avail := ["circle", "square", "triangle", "rectangle", "pentagon", "hexagon", "oval",
        "diamond", "octagon", "star", "heart", "trapezoid"],
      roundCs := ["#FF6B6B", "#4ECDC4", "#FFD166", "#FF8C42", "#6A4C93", "#F72585", "#4CC9F0",
        "#8AC926"],
      minSize := 60, maxSize := 100, adjC := 5, boardW := 100, boardH := 100 } with hC
  have hCo : C.o = hardVelOracle := by rw [hC]
  have hCd : C.d = .hard := by rw [hC]
  have hCtt : C.targetType = "circle" := by rw [hC]
  have hCtc : C.targetColor = "#FF6B6B" := by rw [hC]
  have hCavail : C.avail = ["circle", "square", "triangle", "rectangle", "pentagon", "hexagon",
      "oval", "diamond", "octagon", "star", "heart", "trapezoid"] := by rw [hC]
  have hCround : C.roundCs = ["#FF6B6B", "#4ECDC4", "#FFD166", "#FF8C42", "#6A4C93", "#F72585",
      "#4CC9F0", "#8AC926"] := by rw [hC]
  have hCmin : C.minSize = 60 := by rw [hC]
  have hCmax : C.maxSize = 100 := by rw [hC]
  have hCW : C.boardW = 100 := by rw [hC]
  have hCH : C.boardH = 100 := by rw [hC]
  have hfbc : ∀ i, hardVelOracle.fbChoice i = trivChoice := fun _ => rfl
  have hc1 : trivChoice.rDecoyGate = 0 := rfl
  have hc2 : trivChoice.rDecoyPick = 0 := rfl
  have hc3 : trivChoice.rColorGate = 0 := rfl
  have hc4 : trivChoice.rColorPick = 0 := rfl
  have hc6 : trivChoice.rSize = 0 := rfl
  have hc7 : trivChoice.rRot = 0 := rfl
  have hc8 : trivChoice.rOffX = 0 := rfl
  have hc9 : trivChoice.rOffY = 0 := rfl
  have hc10 : trivChoice.rZ = 0 := rfl
  have hrev : (hardVelOracle.cellShuffle (mkGridCells 150 (Int.toNat 0) (Int.toNat 0))).reverse = [] := by
    simp [hardVelOracle, mkGridCells]
  rw [hrev]
  have hmain : genMainLoop C 5 0 [] false = ([], true) := by
    have h5 : (5:ℕ) = 4 + 1 := rfl
    rw [h5]
    simp [genMainLoop, mainShapeTypeColor, hCd]
  have hgate : ((0:ℚ) < 7/10) := by norm_num
  have hpick : getRandomItemExcluding 0 ["circle", "square", "triangle", "rectangle", "pentagon",
      "hexagon", "oval", "diamond", "octagon", "star", "heart", "trapezoid"] "circle" =
      "square" := by
    have hf : (["circle", "square", "triangle", "rectangle", "pentagon", "hexagon", "oval",
        "diamond", "octagon", "star", "heart", "trapezoid"].filter (fun a => a ≠ "circle")) =
        ["square", "triangle", "rectangle", "pentagon", "hexagon", "oval", "diamond", "octagon",
          "star", "heart", "trapezoid"] := by decide
    have hfl : (⌊(0:ℚ) * 11⌋ : ℤ) = 0 := by norm_num
    simp only [getRandomItemExcluding, getRandomItem, hf, List.length_cons, List.length_nil]
    norm_num [hfl]
  have hitem : getRandomItem 0 ["#FF6B6B", "#4ECDC4", "#FFD166", "#FF8C42", "#6A4C93", "#F72585",
      "#4CC9F0", "#8AC926"] = "#FF6B6B" := by
    have hfl : (⌊(0:ℚ) * 8⌋ : ℤ) = 0 := by norm_num
    simp only [getRandomItem, List.length_cons, List.length_nil]
    norm_num [hfl]
  have hsize : getRandomNumber 0 60 100 = 60 := by
    have h : (⌊(0:ℚ) * (100 - 60 + 1)⌋ : ℤ) = 0 := by norm_num
    rw [getRandomNumber, h]
    norm_num
  have hposx : getRandomNumber 0 20 ((100:ℚ) - 60 - 20) = 20 := by
    have h : (⌊(0:ℚ) * (((100:ℚ) - 60 - 20) - 20 + 1)⌋ : ℤ) = 0 := by norm_num
    rw [getRandomNumber, h]
    norm_num
  have hrot : drawRotation C trivChoice = 0 := by
    rw [drawRotation, hCd, hc7]
    have h : (⌊(0:ℚ) * ((difficultySettings Difficulty.hard).rotationMax -
        (difficultySettings Difficulty.hard).rotationMin + 1)⌋ : ℤ) = 0 := by
      norm_num [difficultySettings]
    rw [getRandomNumber, h]
    norm_num [difficultySettings]
  have hz : (⌊(0:ℚ) * 10⌋ : ℤ) = 0 := by norm_num
  have hstep : ∀ (n i : ℕ), genFallbackLoop C (n + 1) i true =
      sqShape :: genFallbackLoop C n (i + 1) true := by
    intro n i
    simp only [genFallbackLoop, hCo, hCd, hCtt, hCtc, hCavail, hCround, hCmin, hCmax, hCW, hCH,
      hfbc, hc1, hc2, hc3, hc4, hc6, hc7, hc8, hc9, hc10, hgate, hpick, hitem, hsize, hrot, hz]
    simp [sqShape, hposx]
  have hfb0 : ∀ i, genFallbackLoop C 0 i true = [] := fun _ => rfl
  have hfb5 : genFallbackLoop C 5 0 true = [sqShape, sqShape, sqShape, sqShape, sqShape] := by
    simp only [hstep, hfb0]
  have h5 : Int.toNat 5 = 5 := rfl
  simp only [h5, hmain, List.length_nil, List.nil_append, Nat.sub_zero, hfb5]
  have hsqM : sqShape.isMatch = false := rfl
  have hxr : (100:ℚ) / 2 - 60 / 2 + getRandomNumber 0 (-50) 50 = -30 := by
    have h : (⌊(0:ℚ) * ((50:ℚ) - -50 + 1)⌋ : ℤ) = 0 := by norm_num
    rw [getRandomNumber, h]
    norm_num
  have hrepair : repairShapes C [sqShape, sqShape, sqShape, sqShape, sqShape] =
      [sqShape, sqShape, sqShape, sqShape, cRep7] := by
    have hany : ([sqShape, sqShape, sqShape, sqShape, sqShape].any (fun s => s.isMatch)) = false := by
      simp [hsqM]
    have hlast : [sqShape, sqShape, sqShape, sqShape, sqShape].getLast? = some sqShape := rfl
    have hdrop : [sqShape, sqShape, sqShape, sqShape, sqShape].dropLast =
        [sqShape, sqShape, sqShape, sqShape] := rfl
    rw [repairShapes, hany]
    simp only [Bool.false_eq_true, if_false, hlast, hdrop, hCo, hCd, hCtt, hCtc, hCW, hCH]
    have hrx : hardVelOracle.repairRX = 0 := rfl
    have hry : hardVelOracle.repairRY = 0 := rfl
    have hrsz : sqShape.size = 60 := rfl
    simp only [hrx, hry, hrsz, hxr]
    simp [sqShape, cRep7]
  rw [hrepair]
  have hcRepM : cRep7.isMatch = true := rfl
  have hflt : (List.filter (fun s => s.isMatch) [sqShape, sqShape, sqShape, sqShape, cRep7]).length = 1 := by
    simp [hsqM, hcRepM]
  rw [hflt]
  have hguard : ¬((1:ℕ) > 1) := by norm_num
  simp only [if_neg hguard]
  have hbump : bumpMatchZ [sqShape, sqShape, sqShape, sqShape, cRep7] =
      [sqShape, sqShape, sqShape, sqShape, ⟨"circle", "#FF6B6B", 60, 0, true, -30, -30, 0, 0, 40⟩] := by
    simp only [bumpMatchZ, List.map_cons, List.map_nil, hsqM, hcRepM]
    simp [cRep7]
  rw [hbump]
  have hvel : assignedVel (1/20) (3/20) (19/20) 1 = 21/20 := by
    have h : (⌊(19/20:ℚ) * ((3/20:ℚ) - 1/20 + 1)⌋ : ℤ) = 1 := by norm_num
    rw [assignedVel, getRandomNumber, h]
    norm_num
  have hvc : ∀ i, hardVelOracle.velChoice i = hardVel := fun _ => rfl
  have hv1 : hardVel.rVX = 19/20 := rfl
  have hv2 : hardVel.rSX = 1 := rfl
  have hv3 : hardVel.rVY = 19/20 := rfl
  have hv4 : hardVel.rSY = 1 := rfl
  simp only [assignVelocities, hvc, hv1, hv2, hv3, hv4, hvel]
  simp [sqShape, sqShapeV, cShapeV, hvel]

/-- Counterexample to C5 as stated: the round generated by `cexOracle5` on
a 100×100 board contains a rectangle whose position plus its 1.5×-scaled
effective footprint overshoots the right board edge (20 + 150 > 100), and
its repaired match sits at `x = -50`, outside the board on the left. -/
theorem generateGameShapes_containment_cex :
    generateGameShapes cexOracle5 .easy "circle" "#FF6B6B" 5 100 100 1000 =
      .ok [rShape, rShape, rShape, rShape, cShape] ∧
    rShape ∈ [rShape, rShape, rShape, rShape, cShape] ∧
    100 < rShape.x + effectiveWidth rShape ∧
    cShape ∈ [rShape, rShape, rShape, rShape, cShape] ∧
    cShape.x < 0 := by
  refine ⟨?_, by simp, ?_, by simp, by norm_num [cShape]⟩
  · unfold generateGameShapes
    rw [if_neg (by decide), if_neg (by push_neg; exact ⟨by norm_num, by norm_num⟩),
      cex5_core_eval]
  · rw [effectiveWidth, if_pos (by decide)]
    norm_num [rShape]

/-- C7: evaluating the hard-mode velocity assignment at the failing draw
`Math.random() = 19/20` shows that every descriptor of the round receives
velocity `21/20` on each axis — far outside the profile speed range
`[1/20, 3/20]` — because `getRandomNumber`, an integer sampler, is applied
to the fractional range.  Velocities are still assigned only in hard mode. -/
theorem generateGameShapes_velocity_bug :
    generateGameShapes hardVelOracle .hard "circle" "#FF6B6B" 10 100 100 1000 =
      .ok [sqShapeV, sqShapeV, sqShapeV, sqShapeV, cShapeV] ∧
    sqShapeV.vx = 21/20 ∧
    (difficultySettings .hard).movementSpeedMax < sqShapeV.vx ∧
    assignedVel (difficultySettings .hard).movementSpeedMin
      (difficultySettings .hard).movementSpeedMax (19/20) 1 = 21/20 := by
  refine ⟨?_, rfl, by norm_num [difficultySettings, sqShapeV], ?_⟩
  · unfold generateGameShapes
    rw [if_neg (by decide), if_neg (by push_neg; exact ⟨by norm_num, by norm_num⟩),
      hardVel_core_eval]
  · have h : (⌊(19/20:ℚ) * ((3/20:ℚ) - 1/20 + 1)⌋ : ℤ) = 1 := by norm_num
    simp only [difficultySettings]
    rw [assignedVel, getRandomNumber, h]
    norm_num

end ISpy
